import Mathlib

/-!
Shallow embedding of the GoogleCloudPlatformAPI repository
(src/GoogleCloudPlatformAPI/BigQuery.py, CloudStorage.py, AdManager.py,
Utils.py, Oauth.py, Analytics.py) and proofs about the claims of the
natural-language specification.

Python strings are modelled as Lean `String`, Python `datetime.date` as a
record of numerals, local and cloud file systems as association lists, and
vendor SDK calls (BigQuery jobs, Ad Manager SOAP services, Cloud Storage
blobs) as explicit oracles / state transformers.  Every definition is
translated from the source file it names.
-/

/- ### Python string primitives

Helper functions mirroring the Python string operations used by the
repository.  They operate on `List Char` with structural recursion so that
concrete evaluations reduce in the kernel. -/

/-- Python `str.replace(pat, rep)` on character lists: replaces non-overlapping
occurrences scanning left to right.  The `fuel` argument is the length of the
source list (enough for structural recursion; each step consumes at least one
character).  An empty pattern leaves the string unchanged (the repository only
replaces non-empty patterns). -/
def replaceFuel (pat rep : List Char) : Nat → List Char → List Char
  | _, [] => []
  | 0, s => s
  | fuel + 1, c :: rest =>
    if pat ≠ [] ∧ pat.isPrefixOf (c :: rest) then
      rep ++ replaceFuel pat rep fuel ((c :: rest).drop pat.length)
    else
      c :: replaceFuel pat rep fuel rest

/-- Python `s.replace(pat, rep)` for `String`. -/
def pyReplace (s pat rep : String) : String :=
  String.mk (replaceFuel pat.data rep.data s.data.length s.data)

/-- Does `pat` occur as a contiguous substring of `s`?  Python `pat in s`. -/
def isInfixB (pat : List Char) : List Char → Bool
  | [] => pat.isPrefixOf ([] : List Char)
  | c :: rest => pat.isPrefixOf (c :: rest) || isInfixB pat rest

/-- Python `pat in s` for `String`. -/
def pyContains (s pat : String) : Bool :=
  isInfixB pat.data s.data

/-- Python `str.lower` (ASCII case folding, which covers every column name the
repository manipulates). -/
def pyLower (s : String) : String :=
  String.mk (s.data.map Char.toLower)

/-- Python `str.strip()`: drop leading and trailing whitespace. -/
def pyStrip (s : String) : String :=
  String.mk (((s.data.dropWhile Char.isWhitespace).reverse.dropWhile
    Char.isWhitespace).reverse)

/-- Split a character list on a separator character (Python `str.split(sep)`
for a one-character separator: `n` separators yield `n + 1` parts). -/
def splitOnCharAux (sep : Char) : List Char → List Char → List (List Char)
  | acc, [] => [acc.reverse]
  | acc, c :: rest =>
    if c = sep then acc.reverse :: splitOnCharAux sep [] rest
    else splitOnCharAux sep (c :: acc) rest

/-- Python `s.split(sep)` for a one-character separator. -/
def splitOnChar (s : String) (sep : Char) : List String :=
  (splitOnCharAux sep [] s.data).map String.mk

/-- Python `sep.join(parts)`. -/
def joinSep (sep : String) : List String → String
  | [] => ""
  | [x] => x
  | x :: y :: rest => x ++ sep ++ joinSep sep (y :: rest)

/-- One past the index of the last `'/'` of the list (`0` when there is no
slash): Python `p.rfind('/') + 1`, the quantity `posixpath.split` is built
from. -/
def lastSlashIdx : List Char → Nat
  | [] => 0
  | c :: rest =>
    let r := lastSlashIdx rest
    if r = 0 then (if c = '/' then 1 else 0) else r + 1

/-- Python `os.path.dirname` (POSIX rules, the separator the repository runs
under): everything before the last slash, with trailing slashes stripped
unless the head consists of slashes only. -/
def pyDirname (s : String) : String :=
  let cs := s.data
  let i := lastSlashIdx cs
  let head := cs.take i
  if head ≠ [] ∧ head.any (fun c => c ≠ '/') then
    String.mk ((head.reverse.dropWhile (fun c => c = '/')).reverse)
  else
    String.mk head

/-- Python `os.path.basename` (POSIX rules): everything after the last
slash. -/
def pyBasename (s : String) : String :=
  String.mk (s.data.drop (lastSlashIdx s.data))

/-- Left-pad a numeral with zeros to `width` digits, as Python's `%Y` / `%m` /
`%d` format specifiers do. -/
def padNum (width n : Nat) : String :=
  let s := toString n
  String.mk (List.replicate (width - s.length) '0') ++ s

/-- Python `datetime.date`. -/
structure PyDate where
  year : Nat
  month : Nat
  day : Nat
deriving DecidableEq, Repr

/-- Python `d.strftime("%Y-%m-%d")`, the only date format the repository
uses. -/
def strftimeYmd (d : PyDate) : String :=
  padNum 4 d.year ++ "-" ++ padNum 2 d.month ++ "-" ++ padNum 2 d.day

/- ### Utils.py — ListHelper.chunk_list -/

/-- `ListHelper.chunk_list(lst, n)` (src/GoogleCloudPlatformAPI/Utils.py,
lines 203-231): `[lst[i : i + n] for i in range(0, len(lst), n)]`.  The
indices of `range(0, len(lst), n)` are `k * n` for
`k < ceil(len(lst) / n) = (len(lst) + n - 1) / n`, and the slice
`lst[i : i + n]` is `(lst.drop i).take n`.  (Python raises `ValueError` for
`n = 0`; the claims only concern `n > 0`.) -/
def chunk_list {α : Type*} (lst : List α) (n : Nat) : List (List α) :=
  (List.range ((lst.length + n - 1) / n)).map (fun k => (lst.drop (k * n)).take n)

/-- Recursive reformulation of `chunk_list` used for the proofs: peel off the
first `n` elements, recurse on the rest. -/
def chunkRec {α : Type*} : List α → Nat → List (List α)
  | [], _ => []
  | a :: rest, n => (a :: rest.take (n - 1)) :: chunkRec (rest.drop (n - 1)) n
termination_by l _ => l.length
decreasing_by
  simp only [List.length_drop, List.length_cons]
  omega

lemma chunkRec_nil {α : Type*} (n : Nat) : chunkRec ([] : List α) n = [] := by
  simp [chunkRec]

lemma chunkRec_cons {α : Type*} (a : α) (rest : List α) (n : Nat) :
    chunkRec (a :: rest) n = (a :: rest.take (n - 1)) :: chunkRec (rest.drop (n - 1)) n := by
  rw [chunkRec]

/-- Joint statement of the structural properties of `chunkRec`, proved by
strong induction on a length bound. -/
lemma chunkRec_spec {α : Type*} (n : Nat) (hn : 0 < n) :
    ∀ N : Nat, ∀ l : List α, l.length ≤ N →
      (chunkRec l n).flatten = l ∧
      (∀ c ∈ chunkRec l n, c ≠ [] ∧ c.length ≤ n) ∧
      (∀ c ∈ (chunkRec l n).dropLast, c.length = n) ∧
      (chunkRec l n = [] ↔ l = []) := by
  intro N
  induction N with
  | zero =>
    intro l hl
    have : l = [] := List.length_eq_zero.mp (Nat.le_zero.mp hl)
    subst this
    simp [chunkRec_nil]
  | succ N ih =>
    intro l hl
    match l with
    | [] => simp [chunkRec_nil]
    | a :: rest =>
      have hrest : rest.length ≤ N := by
        simpa using Nat.lt_succ_iff.mp (Nat.lt_of_lt_of_le (by simp) hl)
      have hdrop : (rest.drop (n - 1)).length ≤ N := by
        simp only [List.length_drop]
        omega
      obtain ⟨ihJoin, ihAll, ihInit, ihNil⟩ := ih (rest.drop (n - 1)) hdrop
      refine ⟨?_, ?_, ?_, ?_⟩
      · rw [chunkRec_cons]
        simp only [List.flatten_cons, ihJoin, List.cons_append]
        rw [List.take_append_drop]
      · rw [chunkRec_cons]
        intro c hc
        rcases List.mem_cons.mp hc with h | h
        · subst h
          refine ⟨by simp, ?_⟩
          simp only [List.length_cons, List.length_take]
          omega
        · exact ihAll c h
      · rw [chunkRec_cons]
        intro c hc
        rcases h : chunkRec (rest.drop (n - 1)) n with _ | ⟨c₀, cs⟩
        · rw [h] at hc
          simp at hc
        · rw [h] at hc
          rw [List.dropLast_cons_of_ne_nil (by simp)] at hc
          rcases List.mem_cons.mp hc with h1 | h1
          · subst h1
            have hne : rest.drop (n - 1) ≠ [] := by
              intro hcon
              rw [hcon, chunkRec_nil] at h
              exact List.noConfusion h
            have : n - 1 < rest.length := by
              by_contra hcon
              push_neg at hcon
              exact hne (List.drop_eq_nil_of_le hcon)
            simp only [List.length_cons, List.length_take]
            omega
          · exact ihInit c (by rw [h]; exact h1)
      · rw [chunkRec_cons]
        simp

/-- `chunk_list` agrees with the recursive reformulation when `n > 0`. -/
lemma chunk_list_eq_chunkRec {α : Type*} (n : Nat) (hn : 0 < n) :
    ∀ N : Nat, ∀ l : List α, l.length ≤ N → chunk_list l n = chunkRec l n := by
  intro N
  induction N with
  | zero =>
    intro l hl
    have : l = [] := List.length_eq_zero.mp (Nat.le_zero.mp hl)
    subst this
    have h0 : (n - 1) / n = 0 := Nat.div_eq_of_lt (by omega)
    simp [chunk_list, chunkRec_nil, h0]
  | succ N ih =>
    intro l hl
    match l with
    | [] =>
      have h0 : (n - 1) / n = 0 := Nat.div_eq_of_lt (by omega)
      simp [chunk_list, chunkRec_nil, h0]
    | a :: rest =>
      have hrest : rest.length ≤ N := by
        simpa using Nat.lt_succ_iff.mp (Nat.lt_of_lt_of_le (by simp) hl)
      have hdrop : (rest.drop (n - 1)).length ≤ N := by
        simp only [List.length_drop]
        omega
      have hcount : ((a :: rest).length + n - 1) / n = rest.length / n + 1 := by
        simp only [List.length_cons]
        have : rest.length + 1 + n - 1 = rest.length + n := by omega
        rw [this, Nat.add_div_right _ hn]
      have hcount' : ((rest.drop (n - 1)).length + n - 1) / n = rest.length / n := by
        simp only [List.length_drop]
        rcases le_or_lt (n - 1) rest.length with hle | hlt
        · have : rest.length - (n - 1) + n - 1 = rest.length := by omega
          rw [this]
        · have h1 : rest.length - (n - 1) = 0 := by omega
          rw [h1]
          have h2 : (0 + n - 1) / n = 0 := Nat.div_eq_of_lt (by omega)
          have h3 : rest.length / n = 0 := Nat.div_eq_of_lt (by omega)
          rw [h2, h3]
      have hhead : List.take n (a :: rest) = a :: List.take (n - 1) rest := by
        cases n with
        | zero => exact absurd hn (by omega)
        | succ m => simp [List.take_succ_cons]
      have hdropn : List.drop n (a :: rest) = List.drop (n - 1) rest := by
        cases n with
        | zero => exact absurd hn (by omega)
        | succ m => simp [List.drop_succ_cons]
      rw [chunk_list, hcount, List.range_succ_eq_map, chunkRec_cons, List.map_cons]
      congr 1
      · rw [Nat.zero_mul, List.drop_zero, hhead]
      · rw [← ih (rest.drop (n - 1)) hdrop, chunk_list, hcount']
        rw [List.map_map]
        apply List.map_congr_left
        intro k _
        simp only [Function.comp_apply]
        have hmul : Nat.succ k * n = k * n + n := Nat.succ_mul k n
        rw [hmul, ← hdropn, List.drop_drop]
        congr 2
        omega

/-- All four structural properties, stated for `chunk_list` itself. -/
lemma chunk_list_spec {α : Type*} (lst : List α) (n : Nat) (hn : 0 < n) :
    (chunk_list lst n).flatten = lst ∧
    (∀ c ∈ chunk_list lst n, c ≠ [] ∧ c.length ≤ n) ∧
    (∀ c ∈ (chunk_list lst n).dropLast, c.length = n) ∧
    (chunk_list lst n = [] ↔ lst = []) := by
  rw [chunk_list_eq_chunkRec n hn lst.length lst (le_refl _)]
  exact chunkRec_spec n hn lst.length lst (le_refl _)

/- ### BigQuery.py — schema JSON, job configuration, file-system state -/

/-- One entry of the `table_schema` list of a `schema.json` file. -/
structure SchemaFieldJson where
  name : String
  type : String
  mode : String
deriving DecidableEq, Repr

/-- Parsed content of a `schema.json` file, with the keys
`BigQuery.build_job_config` reads (src/GoogleCloudPlatformAPI/BigQuery.py). -/
structure SchemaJson where
  table_schema : List SchemaFieldJson
  allow_jagged_rows : Bool
  allow_quoted_newlines : Bool
  ignore_unknown_values : Bool
  source_format : String
  field_delimiter : String
  skip_leading_rows : Nat
deriving DecidableEq, Repr

/-- `google.cloud.bigquery.SchemaField(name, field_type, mode)`. -/
structure SchemaField where
  name : String
  field_type : String
  mode : String
deriving DecidableEq, Repr

/-- `google.cloud.bigquery.WriteDisposition`. -/
inductive WriteDisposition
  | WRITE_APPEND
  | WRITE_TRUNCATE
  | WRITE_EMPTY
deriving DecidableEq, Repr

/-- `google.cloud.bigquery.SourceFormat` (the two values the module sets). -/
inductive SourceFormat
  | CSV
  | NEWLINE_DELIMITED_JSON
deriving DecidableEq, Repr

/-- `google.cloud.bigquery.LoadJobConfig`, restricted to the attributes
`BigQuery.build_job_config` sets.  Attributes the code only sets on some
branches are `Option`s (`none` = left unset on the job configuration). -/
structure LoadJobConfig where
  schema : List SchemaField
  allow_jagged_rows : Bool
  allow_quoted_newlines : Bool
  ignore_unknown_values : Bool
  write_disposition : Option WriteDisposition
  source_format : Option SourceFormat
  field_delimiter : Option String
  skip_leading_rows : Option Nat
deriving DecidableEq, Repr

/-- The local filesystem, as an association list from path to parsed
`schema.json` content (schema files are the only local files the load-job
code reads or writes). -/
abbrev LocalFS := List (String × SchemaJson)

def fsLookup : LocalFS → String → Option SchemaJson
  | [], _ => none
  | (q, v) :: rest, p => if q = p then some v else fsLookup rest p

/-- Writing a file (later entries shadowed by the new head). -/
def fsWrite (fs : LocalFS) (p : String) (v : SchemaJson) : LocalFS :=
  (p, v) :: fs

/-- Cloud Storage contents: association list from (bucket, blob name) to the
schema content stored there. -/
abbrev CloudFS := List ((String × String) × SchemaJson)

def cloudLookup : CloudFS → String → String → Option SchemaJson
  | [], _, _ => none
  | ((b, n), v) :: rest, bucket, name =>
    if b = bucket ∧ n = name then some v else cloudLookup rest bucket name

/-- Observable Cloud Storage calls made while building / syncing a load job. -/
inductive CsEvent
  | download (bucket blob dest : String)
  | uploadFolder (bucket localFolder remoteFolder : String)
  | deleteFiles (bucket pre : String)
deriving DecidableEq, Repr

/-- `partition_date.strftime("%Y-%m-%d")` where `partition_date` may be
Python `None`: attribute access on `None` raises `AttributeError`. -/
def strftimeOpt : Option PyDate → Except String String
  | none => Except.error "AttributeError: NoneType object has no attribute strftime"
  | some d => Except.ok (strftimeYmd d)

/-- `BigQuery.build_job_config(table_name, bucket_name, data_path,
partition_date)` (src/GoogleCloudPlatformAPI/BigQuery.py, lines 729-812),
as a transformer of the local filesystem returning the Cloud Storage calls it
made and either an error or (new filesystem, `LoadJobConfig`, source URI).

Faithful step order:
1. `schema_path = data_path + "schema.json"`; when that local file does not
   exist, `CloudStorage.download_as_string(bucket_name,
   data_path + "/schema.json", schema_path)` fetches it (raising `NotFound`
   when the blob is absent).
2. `partition_schema_path = data_path + partition_date.strftime("%Y-%m-%d")
   + "/schema.json"` — this is where a `None` partition_date raises, before
   the `if partition_date is not None` test further down.
3. when the partition-local copy does not exist, `shutil.copy` creates it
   from `schema_path`.
4. the job configuration and URI are built from the content of
   `partition_schema_path`. -/
def build_job_config (cloud : CloudFS) (bucket_name data_path : String)
    (partition_date : Option PyDate) (fs : LocalFS) :
    List CsEvent × Except String (LocalFS × LoadJobConfig × String) :=
  let folder_name := data_path
  let schema_path := folder_name ++ "schema.json"
  let step1 : List CsEvent × Except String LocalFS :=
    if (fsLookup fs schema_path).isSome then ([], Except.ok fs)
    else
      match cloudLookup cloud bucket_name (folder_name ++ "/schema.json") with
      | some content =>
        ([CsEvent.download bucket_name (folder_name ++ "/schema.json") schema_path],
         Except.ok (fsWrite fs schema_path content))
      | none =>
        ([CsEvent.download bucket_name (folder_name ++ "/schema.json") schema_path],
         Except.error "google.cloud.exceptions.NotFound")
  match step1 with
  | (events, Except.error e) => (events, Except.error e)
  | (events, Except.ok fs1) =>
    match strftimeOpt partition_date with
    | Except.error e => (events, Except.error e)
    | Except.ok dstr =>
      let partition_schema_path := folder_name ++ dstr ++ "/schema.json"
      let step3 : Except String LocalFS :=
        if (fsLookup fs1 partition_schema_path).isSome then Except.ok fs1
        else
          match fsLookup fs1 schema_path with
          | some content => Except.ok (fsWrite fs1 partition_schema_path content)
          | none => Except.error "FileNotFoundError"
      match step3 with
      | Except.error e => (events, Except.error e)
      | Except.ok fs2 =>
        match fsLookup fs2 partition_schema_path with
        | none => (events, Except.error "FileNotFoundError")
        | some schema_json =>
          let job_schema := schema_json.table_schema.map
            (fun field => SchemaField.mk field.name field.type field.mode)
          let job_config : LoadJobConfig :=
            { schema := job_schema
              allow_jagged_rows := schema_json.allow_jagged_rows
              allow_quoted_newlines := schema_json.allow_quoted_newlines
              ignore_unknown_values := schema_json.ignore_unknown_values
              write_disposition := none
              source_format := none
              field_delimiter := none
              skip_leading_rows := none }
          let step4 : LoadJobConfig × String :=
            match partition_date with
            | some d =>
              ({ job_config with write_disposition := some WriteDisposition.WRITE_APPEND },
               "gs://" ++ bucket_name ++ "/" ++ pyBasename (pyDirname folder_name)
                 ++ "/" ++ strftimeYmd d)
            | none =>
              ({ job_config with write_disposition := some WriteDisposition.WRITE_TRUNCATE },
               "gs://" ++ bucket_name ++ "/" ++ folder_name)
          let (cfg1, uri1) := step4
          let step5 : LoadJobConfig × String :=
            if schema_json.source_format = "CSV" then
              ({ cfg1 with
                  field_delimiter := some schema_json.field_delimiter
                  skip_leading_rows := some schema_json.skip_leading_rows
                  source_format := some SourceFormat.CSV },
               uri1 ++ "/*.csv.gz")
            else
              ({ cfg1 with source_format := some SourceFormat.NEWLINE_DELIMITED_JSON },
               uri1 ++ "/*.json.gz")
          (events, Except.ok (fs2, step5.1, step5.2))

/-- The schema-caching prefix of `BigQuery.load_from_local`
(src/GoogleCloudPlatformAPI/BigQuery.py, lines 641-673): compute the remote,
destination and source folders, optionally delete the destination prefix,
download `remote_folder + "schema.json"` when `local_folder + "schema.json"`
is absent, create the partition-local copy when absent, then upload the
source folder.  Returns the Cloud Storage calls and the new local
filesystem. -/
def load_from_local_sync (cloud : CloudFS) (bucket_name table local_folder : String)
    (partition_date : Option PyDate) (override : Bool) (fs : LocalFS) :
    List CsEvent × Except String LocalFS :=
  let remote_folder := table ++ "/"
  let dest_folder :=
    match partition_date with
    | some d => remote_folder ++ strftimeYmd d ++ "/"
    | none => remote_folder
  let source_folder :=
    match partition_date with
    | some d => local_folder ++ strftimeYmd d ++ "/"
    | none => local_folder
  let ev0 : List CsEvent :=
    if override then [CsEvent.deleteFiles bucket_name dest_folder] else []
  let schema_path := local_folder ++ "schema.json"
  let step1 : List CsEvent × Except String LocalFS :=
    if (fsLookup fs schema_path).isSome then ([], Except.ok fs)
    else
      match cloudLookup cloud bucket_name (remote_folder ++ "schema.json") with
      | some content =>
        ([CsEvent.download bucket_name (remote_folder ++ "schema.json") schema_path],
         Except.ok (fsWrite fs schema_path content))
      | none =>
        ([CsEvent.download bucket_name (remote_folder ++ "schema.json") schema_path],
         Except.error "google.cloud.exceptions.NotFound")
  match step1 with
  | (ev1, Except.error e) => (ev0 ++ ev1, Except.error e)
  | (ev1, Except.ok fs1) =>
    let partition_schema_path := source_folder ++ "schema.json"
    let step2 : Except String LocalFS :=
      if (fsLookup fs1 partition_schema_path).isSome then Except.ok fs1
      else
        match fsLookup fs1 schema_path with
        | some content => Except.ok (fsWrite fs1 partition_schema_path content)
        | none => Except.error "FileNotFoundError"
    match step2 with
    | Except.error e => (ev0 ++ ev1, Except.error e)
    | Except.ok fs2 =>
      (ev0 ++ ev1 ++ [CsEvent.uploadFolder bucket_name source_folder dest_folder],
       Except.ok fs2)

/-- `BigQuery.delete_partition(table_id, partition_date, partition_name)`
(src/GoogleCloudPlatformAPI/BigQuery.py, lines 494-527).  `exists?` is the
result of `self.table_exists(table_id)`; the returned list is the sequence
of queries submitted to the client (each awaited via `.result()`). -/
def delete_partition (exists? : Bool) (table_id : String) (partition_date : PyDate)
    (partition_name : String) : List String × Bool :=
  if exists? then
    (["DELETE FROM " ++ table_id ++ " WHERE " ++ partition_name ++ " = '"
        ++ strftimeYmd partition_date ++ "'"], true)
  else
    ([], false)

/-- `google.cloud.bigquery.QueryJobConfig` restricted to the attributes
`BigQuery.load_from_query` sets. -/
structure QueryJobCfg where
  destination : Option String
  allow_large_results : Bool
  write_disposition : Option WriteDisposition
deriving DecidableEq, Repr

/-- One `client.query(...)` submission (query text and optional job
configuration), whose completion is awaited via `.result()`. -/
structure QueryCall where
  query : String
  config : Option QueryJobCfg
deriving DecidableEq, Repr

/-- One `client.load_table_from_uri(...)` submission, whose completion is
awaited via `.result()`. -/
structure LoadCall where
  uri : String
  destination : String
  config : LoadJobConfig
deriving DecidableEq, Repr

/-- `BigQuery.load_from_query(query, table_id, write_disposition)`
(src/GoogleCloudPlatformAPI/BigQuery.py, lines 460-491).  `run` is the
vendor client: it maps the submitted query job to the outcome of `.result()`.
The function submits exactly one job and waits for it; Python returns `None`
on completion, modelled as `Except.ok ()`. -/
def load_from_query (run : QueryCall → Except String Unit) (query table_id : String)
    (write_disposition : WriteDisposition) : List QueryCall × Except String Unit :=
  let job_config : QueryJobCfg :=
    { destination := some table_id
      allow_large_results := true
      write_disposition := some write_disposition }
  let call : QueryCall := { query := query, config := some job_config }
  ([call], run call)

/-- `BigQuery.load_from_uri(table_id, bucket_name, data_path, partition_date)`
(src/GoogleCloudPlatformAPI/BigQuery.py, lines 686-727): build the job
configuration, submit one load job, await `.result()`, return `True`.
`runLoad` is the vendor client's load-job outcome.  Returns the Cloud Storage
calls of `build_job_config`, the submitted load jobs, and the result. -/
def load_from_uri (cloud : CloudFS) (runLoad : LoadCall → Except String Unit)
    (table_id bucket_name data_path : String) (partition_date : Option PyDate)
    (fs : LocalFS) : List CsEvent × List LoadCall × Except String Bool :=
  match build_job_config cloud bucket_name data_path partition_date fs with
  | (ev, Except.error e) => (ev, [], Except.error e)
  | (ev, Except.ok (_, cfg, uri)) =>
    let call : LoadCall := { uri := uri, destination := table_id, config := cfg }
    match runLoad call with
    | Except.error e => (ev, [call], Except.error e)
    | Except.ok _ => (ev, [call], Except.ok true)

/-- The `delete_partition` prelude of `BigQuery.load_from_cloud` (executed
when `override` is set; with a `None` partition date it raises inside the
table-exists branch before issuing any query). -/
def load_from_cloud_delete_step (texists : Bool) (table_id : String)
    (partition_date : Option PyDate) (partition_name : String) (override : Bool) :
    List String × Except String Unit :=
  if override then
    match partition_date with
    | some d => ((delete_partition texists table_id d partition_name).1, Except.ok ())
    | none =>
      -- delete_partition formats partition_date inside the table-exists
      -- branch; a None partition_date raises there before any query.
      if texists then
        ([], Except.error "AttributeError: NoneType object has no attribute strftime")
      else ([], Except.ok ())
  else ([], Except.ok ())

/-- `BigQuery.load_from_cloud(bucket_name, data_set, table, local_folder,
remote_folder, partition_date, partition_name, file_mask, override)`
(src/GoogleCloudPlatformAPI/BigQuery.py, lines 529-592).  `local_folder` and
`file_mask` are unused by the source body and omitted.  `texists` is
`self.table_exists(table_id)` (consulted only when `override` is set, inside
`delete_partition`).  Returns (delete queries issued, Cloud Storage calls,
load jobs submitted, outcome); the outcome is `Except.ok true` only after the
single load job's `.result()` returned. -/
def load_from_cloud (cloud : CloudFS) (texists : Bool)
    (runLoad : LoadCall → Except String Unit)
    (bucket_name data_set table remote_folder : String)
    (partition_date : Option PyDate) (partition_name : String) (override : Bool)
    (fs : LocalFS) :
    List String × List CsEvent × List LoadCall × Except String Bool :=
  let table_id := data_set ++ "." ++ table
  match load_from_cloud_delete_step texists table_id partition_date partition_name override with
  | (qs, Except.error e) => (qs, [], [], Except.error e)
  | (qs, Except.ok _) =>
    match build_job_config cloud bucket_name remote_folder partition_date fs with
    | (ev, Except.error e) => (qs, ev, [], Except.error e)
    | (ev, Except.ok (_, cfg, uri)) =>
      let call : LoadCall := { uri := uri, destination := table_id, config := cfg }
      match runLoad call with
      | Except.error e => (qs, ev, [call], Except.error e)
      | Except.ok _ => (qs, ev, [call], Except.ok true)

/- ### AdManager.py — ReportService._get_report_by_report_job -/

/-- `ReportService._get_report_by_report_job(report_job)`
(src/GoogleCloudPlatformAPI/AdManager.py, lines 911-966), abstracted over the
vendor `DataDownloader`: `waitForReport` is `WaitForReport` (raising
`AdManagerReportError`, modelled as the error branch), `downloadReport` is the
download-gunzip-parse tail of the method.  An `AdManagerReportError` from
`WaitForReport` is logged and re-raised unchanged (`raise e`). -/
def get_report_by_report_job {Job Id Row : Type} (waitForReport : Job → Except String Id)
    (downloadReport : Id → List Row) (report_job : Job) : Except String (List Row) :=
  match waitForReport report_job with
  | Except.error e => Except.error e
  | Except.ok report_job_id => Except.ok (downloadReport report_job_id)

/- ### AdManager.py — paginated statement loops -/

/-- A googleads `StatementBuilder`, restricted to the fields the paging loops
use: the (already bound) WHERE clause, and the mutable `offset` and `limit`
attributes. -/
structure Statement where
  whereClause : String
  offset : Nat
  limit : Nat
deriving DecidableEq, Repr

/-- One Ad Manager `get...ByStatement` response: `none` when the response has
no `results` field, `some rs` when it has one (possibly empty). -/
abbrev GamService (α : Type) := Statement → Option (List α)

/-- The shared paging loop of `AudienceService.list`, `AudienceService.list_all`
and `CustomTargetingService.list` (src/GoogleCloudPlatformAPI/AdManager.py):

```
while True:
    response = service.getXByStatement(statement.ToStatement())
    if "results" in response and len(response["results"]):
        results.extend(response["results"])
        statement.offset += statement.limit
    else:
        break
```

`fuel` bounds the number of iterations (the Python loop is unbounded);
`none` means the fuel ran out with the loop still running.  On termination
the accumulated results and the final statement are returned. -/
def gam_page_loop {α : Type} (svc : GamService α) :
    Nat → Statement → List α → Option (List α × Statement)
  | 0, _, _ => none
  | fuel + 1, s, acc =>
    match svc s with
    | some rs =>
      if rs.isEmpty then some (acc, s)
      else gam_page_loop svc fuel { s with offset := s.offset + s.limit } (acc ++ rs)
    | none => some (acc, s)

/-- `AudienceService.list` (src/GoogleCloudPlatformAPI/AdManager.py,
lines 359-396): page through `getAudienceSegmentsByStatement` starting from
the built statement, extending `results` with every non-empty page. -/
def audience_service_list {α : Type} (svc : GamService α) (s₀ : Statement)
    (fuel : Nat) : Option (List α × Statement) :=
  gam_page_loop svc fuel s₀ []

/-- `AudienceService.list_all` (src/GoogleCloudPlatformAPI/AdManager.py,
lines 398-435): the same loop over an unfiltered statement. -/
def audience_service_list_all {α : Type} (svc : GamService α) (s₀ : Statement)
    (fuel : Nat) : Option (List α × Statement) :=
  gam_page_loop svc fuel s₀ []

/-- `CustomTargetingService.list` (src/GoogleCloudPlatformAPI/AdManager.py,
lines 604-647): the same loop, appending each result of a page in order
(equivalent to `extend`). -/
def custom_targeting_service_list {α : Type} (svc : GamService α) (s₀ : Statement)
    (fuel : Nat) : Option (List α × Statement) :=
  gam_page_loop svc fuel s₀ []

/-- Python `dict` insertion: replace the value of an existing key in place,
append a fresh key at the end. -/
def dictInsert {β : Type*} : List (String × β) → String → β → List (String × β)
  | [], k, v => [(k, v)]
  | (k', v') :: rest, k, v =>
    if k' = k then (k, v) :: rest else (k', v') :: dictInsert rest k v

/-- `TargetingPresetService.list_by_prefix` (src/GoogleCloudPlatformAPI/
AdManager.py, lines 824-868): the same offset-paging loop, but each result of
a non-empty page is stored into a dict keyed by `targeting_preset["name"]`. -/
def gam_dict_loop {β : Type} (nameOf : β → String) (svc : GamService β) :
    Nat → Statement → List (String × β) → Option (List (String × β) × Statement)
  | 0, _, _ => none
  | fuel + 1, s, acc =>
    match svc s with
    | some rs =>
      if rs.isEmpty then some (acc, s)
      else gam_dict_loop nameOf svc fuel { s with offset := s.offset + s.limit }
        (rs.foldl (fun m p => dictInsert m (nameOf p) p) acc)
    | none => some (acc, s)

/-- Entry point of `TargetingPresetService.list_by_prefix`, starting from the
built `name LIKE :prefix` statement with an empty dict. -/
def targeting_preset_list {β : Type} (nameOf : β → String) (svc : GamService β)
    (s₀ : Statement) (fuel : Nat) : Option (List (String × β) × Statement) :=
  gam_dict_loop nameOf svc fuel s₀ []

/-- The statement after `i` successful pages: offset advanced by `i` times the
limit, everything else unchanged. -/
def stmtAt (s : Statement) (i : Nat) : Statement :=
  { s with offset := s.offset + i * s.limit }

/-- The page served at iteration `i` (empty when the `results` field is
missing). -/
def pageAt {α : Type} (svc : GamService α) (s : Statement) (i : Nat) : List α :=
  (svc (stmtAt s i)).getD []

/- ### AdManager.py — CustomTargetingService.delete -/

/-- The fields of an Ad Manager `KeyValuePair` used by
`CustomTargetingService.delete` (`id` for the statement, `name` only for
logging). -/
structure KeyValuePair where
  customTargetingKeyId : Int
  id : Int
  name : String
deriving DecidableEq, Repr

/-- One `performCustomTargetingValueAction` call: the bound targeting key id
and the enumerated value ids of the chunk, together with the WHERE text the
`StatementBuilder` is given. -/
structure DeleteCall where
  keyId : Int
  ids : List Int
  whereText : String
deriving DecidableEq, Repr

/-- `CustomTargetingService.delete(targeting_key_id, key_value_pairs)`
(src/GoogleCloudPlatformAPI/AdManager.py, lines 649-696): split the pairs
into chunks of 100 with `ListHelper.chunk_list`, and issue one
`performCustomTargetingValueAction` per chunk whose statement binds
`keyId` and enumerates the ids of the chunk. -/
def custom_targeting_delete (targeting_key_id : Int)
    (key_value_pairs : List KeyValuePair) : List DeleteCall :=
  (chunk_list key_value_pairs 100).map (fun key_value_pairs_slice =>
    { keyId := targeting_key_id
      ids := key_value_pairs_slice.map (fun kvp => kvp.id)
      whereText := "customTargetingKeyId = :keyId AND id IN ("
        ++ joinSep ", " (key_value_pairs_slice.map (fun kvp => toString kvp.id)) ++ ")" })

/- ### AdManager.py — ReportService.normalise_report -/

/-- The column-name transformation of `ReportService.normalise_report`
(src/GoogleCloudPlatformAPI/AdManager.py, lines 1071-1113): strip, lowercase,
replace spaces and hyphens with underscores, delete the substrings
`"column."` and `"dimension."`.  (The branches also convert the column's
values — `pd.to_numeric` / `astype(str)` — which does not affect names and is
outside this name-level model.) -/
def normalise_name (col : String) : String :=
  let n := pyStrip col
  let n := pyLower n
  let n := pyReplace n " " "_"
  let n := pyReplace n "-" "_"
  let n := if pyContains n "column." then pyReplace n "column." "" else n
  let n := if pyContains n "dimension." then pyReplace n "dimension." "" else n
  n

/-- The renaming loop of `normalise_report`: `df.columns` is captured once,
and each iteration rebinds `df = df.rename(columns={col: new_name})`, which
renames every current label equal to `col`.  The state is the current list of
column labels, initially the captured columns themselves (of the copy). -/
def rename_loop (cols : List String) : List String :=
  cols.foldl
    (fun labels col => labels.map (fun x => if x = col then normalise_name col else x))
    cols

/-- Python string comparison (`s1 <= s2`): lexicographic by code point. -/
def pyStrLeList : List Char → List Char → Bool
  | [], _ => true
  | _ :: _, [] => false
  | a :: as, b :: bs =>
    if a.toNat < b.toNat then true
    else if b.toNat < a.toNat then false
    else pyStrLeList as bs

/-- Python `a <= b` on strings. -/
def pyStrLe (a b : String) : Bool :=
  pyStrLeList a.data b.data

/-- `ReportService.normalise_report` at the level of column names: run the
renaming loop, add `ad_unit_5` / `ad_unit_id_5` (filled with `"-"`) when
`ad_unit_4` is present but `ad_unit_5` is not, and reindex by the sorted
column labels (`df.reindex(sorted(df.columns), axis=1)`; Python `sorted` is
ascending lexicographic by code point).  The method operates on
`df = data_frame.copy()`, so the input frame itself is untouched. -/
def normalise_report (cols : List String) : List String :=
  let renamed := rename_loop cols
  let withAdUnit :=
    if "ad_unit_4" ∈ renamed ∧ "ad_unit_5" ∉ renamed then
      renamed ++ ["ad_unit_5", "ad_unit_id_5"]
    else renamed
  withAdUnit.insertionSort (fun a b => pyStrLe a b = true)

/- ### CloudStorage.py — guarded uploads and copies -/

/-- A Cloud Storage blob store: association list from (bucket, blob name) to
content. -/
abbrev BlobStore := List ((String × String) × String)

def blobLookup : BlobStore → String → String → Option String
  | [], _, _ => none
  | ((b, n), v) :: rest, bucket, name =>
    if b = bucket ∧ n = name then some v else blobLookup rest bucket name

/-- `CloudStorage.file_exists(filepath, bucket_name)`
(src/GoogleCloudPlatformAPI/CloudStorage.py, lines 278-297): `blob.exists()`. -/
def cs_file_exists (store : BlobStore) (filepath bucket_name : String) : Bool :=
  (blobLookup store bucket_name filepath).isSome

/-- `blob.upload_from_string` / `upload_from_filename`: (over)write the blob. -/
def blobWrite (store : BlobStore) (bucket name content : String) : BlobStore :=
  ((bucket, name), content) :: store

/-- `CloudStorage.upload_from_string(bucket_name, destination_blob_name, data,
override)` (src/GoogleCloudPlatformAPI/CloudStorage.py, lines 154-179):
upload exactly when the blob does not exist or `override` is set. -/
def upload_from_string (store : BlobStore) (bucket_name destination_blob_name data : String)
    (override : Bool) : BlobStore :=
  if ¬ cs_file_exists store destination_blob_name bucket_name ∨ override then
    blobWrite store bucket_name destination_blob_name data
  else store

/-- `CloudStorage.upload_file_from_filename(local_file_path,
destination_file_path, bucket_name, override)`
(src/GoogleCloudPlatformAPI/CloudStorage.py, lines 181-211).  `localContent`
is the content of the local file the blob would be uploaded from. -/
def upload_file_from_filename (store : BlobStore) (localContent : String)
    (destination_file_path bucket_name : String) (override : Bool) : BlobStore :=
  if ¬ cs_file_exists store destination_file_path bucket_name ∨ override then
    blobWrite store bucket_name destination_file_path localContent
  else store

/-- Component filter of `posixpath.normpath`: fold the raw components left to
right, skipping `''` and `'.'`, appending any other component unless it is
`".."` and can cancel a previous real component. -/
def normpathFold (absolute : Bool) : List String → List String → List String
  | acc, [] => acc.reverse
  | acc, comp :: rest =>
    if comp = "" ∨ comp = "." then normpathFold absolute acc rest
    else if comp ≠ ".." ∨ (¬ absolute ∧ acc = []) ∨ (acc.headI = "..") then
      normpathFold absolute (comp :: acc) rest
    else
      match acc with
      | [] => normpathFold absolute [] rest
      | _ :: acc' => normpathFold absolute acc' rest

/-- Python `os.path.normpath(path)` on POSIX. -/
def pyNormpath (path : String) : String :=
  if path = "" then "."
  else
    let absolute := path.data.headI = '/'
    let doubleSlash :=
      path.data.headI = '/' ∧ path.data.tail.headI = '/' ∧
        path.data.tail.tail.headI ≠ '/'
    let comps := splitOnChar path '/'
    let new := normpathFold absolute [] comps
    let body := joinSep "/" new
    let out :=
      if absolute then (if doubleSlash then "//" ++ body else "/" ++ body)
      else body
    if out = "" then "." else out

/-- `CloudStorage.upload_file(local_file_path, destination_file_path,
override)` (src/GoogleCloudPlatformAPI/CloudStorage.py, lines 213-241):
normalise the destination path, split off the bucket (first component) and
blob path (rest), then upload under the same guard. -/
def upload_file (store : BlobStore) (localContent : String)
    (destination_file_path : String) (override : Bool) : BlobStore :=
  let file_path := pyNormpath destination_file_path
  let path_parts := splitOnChar file_path '/'
  let bucket_name := path_parts.headI
  let blob_path := if path_parts.length > 1 then joinSep "/" path_parts.tail else ""
  if ¬ cs_file_exists store blob_path bucket_name ∨ override then
    blobWrite store bucket_name blob_path localContent
  else store

/-- `CloudStorage.copy_file(bucket_name, file_name, destination_bucket_name,
override)` (src/GoogleCloudPlatformAPI/CloudStorage.py, lines 330-369): when
the file does not exist in the destination bucket or `override` is set, copy
the source blob and return `True` (vendor `copy_blob` raises `NotFound` when
the source blob is missing); otherwise return `False` without writing. -/
def copy_file (store : BlobStore) (bucket_name file_name destination_bucket_name : String)
    (override : Bool) : Except String (BlobStore × Bool) :=
  if ¬ cs_file_exists store file_name destination_bucket_name ∨ override then
    match blobLookup store bucket_name file_name with
    | some content =>
      Except.ok (blobWrite store destination_bucket_name file_name content, true)
    | none => Except.error "google.cloud.exceptions.NotFound"
  else Except.ok (store, false)

/- ### Oauth.py / facade constructors — credential selection -/

/-- How a facade ends up authenticating: from a service-account key file (with
the scopes requested), via `google.auth.default` application-default
credentials, by handing the client a raw value in place of a credentials
object, or through an interactive OAuth user flow (never used by the
facades). -/
inductive CredSource
  | serviceAccountFile (path : Option String) (scopes : List String)
  | applicationDefault (scopes : List String)
  | rawValue (value : String)
  | interactiveOAuth
deriving DecidableEq, Repr

/-- `ServiceAccount.from_service_account_file(credentials, scopes)`
(src/GoogleCloudPlatformAPI/Oauth.py, lines 133-174): substitute
`GOOGLE_APPLICATION_CREDENTIALS` when no path is given, then build
service-account credentials from the file with the cloud-platform scope by
default. -/
def from_service_account_file (credentials : Option String) (env : Option String)
    (scopes : List String) : CredSource :=
  let credentials := match credentials with
    | none => env
    | some c => some c
  CredSource.serviceAccountFile credentials scopes

/-- The default `scopes` argument of `ServiceAccount.from_service_account_file`. -/
def cloudPlatformScopes : List String :=
  ["https://www.googleapis.com/auth/cloud-platform"]

/-- `googleads.oauth2.GetAPIScope("ad_manager")`. -/
def adManagerScope : String :=
  "https://www.googleapis.com/auth/dfp"

/-- `ServiceAccount.get_service_account_client(credentials, scope)`
(src/GoogleCloudPlatformAPI/Oauth.py, lines 176-214): substitute
`GOOGLE_APPLICATION_CREDENTIALS` when no path is given and build a
`GoogleServiceAccountClient` with `GetAPIScope(scope)` (default
`"ad_manager"`). -/
def get_service_account_client (credentials : Option String) (env : Option String) :
    CredSource :=
  let credentials := match credentials with
    | none => env
    | some c => some c
  CredSource.serviceAccountFile credentials [adManagerScope]

/-- Credential selection of `BigQuery.__init__(credentials, project_id)`
(src/GoogleCloudPlatformAPI/BigQuery.py, lines 90-118): an explicit path
wins, then the `GOOGLE_APPLICATION_CREDENTIALS` environment variable, then
`google.auth.default`.  In the first two branches the project id is read
from the service-account file (`creds.project_id`). -/
def bigquery_init_creds (credentials : Option String) (env : Option String) : CredSource :=
  match credentials with
  | some c => from_service_account_file (some c) env cloudPlatformScopes
  | none =>
    match env with
    | some _ => from_service_account_file none env cloudPlatformScopes
    | none => CredSource.applicationDefault cloudPlatformScopes

/-- Credential selection of `CloudStorage.__init__(credentials, project_id)`
(src/GoogleCloudPlatformAPI/CloudStorage.py, lines 26-49): an explicit
`credentials` value is passed through to `storage.Client` as-is (the raw
path string, not an oauth credentials object built from the file);
otherwise the environment variable selects service-account credentials;
otherwise the client obtains application-default credentials. -/
def cloudstorage_init_creds (credentials : Option String) (env : Option String) :
    CredSource :=
  match credentials with
  | some c => CredSource.rawValue c
  | none =>
    match env with
    | some _ => from_service_account_file none env cloudPlatformScopes
    | none => CredSource.applicationDefault []

/-- The default `scopes` argument of `Analytics`: the Analytics read-only
scope (src/GoogleCloudPlatformAPI/Analytics.py). -/
def analyticsScopes : List String :=
  ["https://www.googleapis.com/auth/analytics.readonly"]

/-- Credential selection of `Analytics.__init__(credentials)`
(src/GoogleCloudPlatformAPI/Analytics.py, lines 41-67): substitute the
environment variable when no path is given, then always build
service-account credentials from the file with the Analytics scopes. -/
def analytics_init_creds (credentials : Option String) (env : Option String) : CredSource :=
  let credentials := match credentials with
    | none => env
    | some c => some c
  from_service_account_file credentials env analyticsScopes

/-- Credential selection of `GamClient.__init__`
(src/GoogleCloudPlatformAPI/AdManager.py, lines 149-184): always
`ServiceAccount.get_service_account_client()` (the ad_manager scope, key
file from the environment variable). -/
def gamclient_init_creds (env : Option String) : CredSource :=
  get_service_account_client none env

/-- Does a credential source come from an interactive OAuth flow? -/
def CredSource.isInteractive : CredSource → Bool
  | CredSource.interactiveOAuth => true
  | _ => false

/- ### Helper lemmas -/

lemma string_mk_length (l : List Char) : (String.mk l).length = l.length := rfl

lemma padNum_length_ge (width n : Nat) : width ≤ (padNum width n).length := by
  unfold padNum
  simp only [String.length_append, string_mk_length, List.length_replicate]
  omega

lemma strftimeYmd_length_ge (d : PyDate) : 10 ≤ (strftimeYmd d).length := by
  unfold strftimeYmd
  simp only [String.length_append]
  have h1 := padNum_length_ge 4 d.year
  have h2 := padNum_length_ge 2 d.month
  have h3 := padNum_length_ge 2 d.day
  have hdash : ("-" : String).length = 1 := rfl
  omega

/-- The partition-local schema path never collides with the cached schema
path. -/
lemma partition_path_ne (data_path : String) (d : PyDate) :
    data_path ++ strftimeYmd d ++ "/schema.json" ≠ data_path ++ "schema.json" := by
  intro h
  have hlen := congrArg String.length h
  simp only [String.length_append] at hlen
  have h10 := strftimeYmd_length_ge d
  have h11 : ("/schema.json" : String).length = 12 := by decide
  have h12 : ("schema.json" : String).length = 11 := by decide
  omega

/- ### C5 -/

/-- C5: for every list `lst` and chunk size `n > 0`,
`ListHelper.chunk_list(lst, n)` returns chunks whose concatenation is `lst`,
every chunk except possibly the last has length exactly `n`, every chunk
(hence in particular the last) is non-empty of length at most `n`, and the
result is empty exactly when `lst` is. -/
theorem C5_chunk_list_properties {α : Type*} (lst : List α) (n : Nat) (hn : 0 < n) :
    (chunk_list lst n).flatten = lst ∧
    (∀ c ∈ (chunk_list lst n).dropLast, c.length = n) ∧
    (∀ c ∈ chunk_list lst n, c ≠ [] ∧ c.length ≤ n) ∧
    (chunk_list lst n = [] ↔ lst = []) := by
  obtain ⟨h1, h2, h3, h4⟩ := chunk_list_spec lst n hn
  exact ⟨h1, h3, h2, h4⟩

/-- Witness for C5 at the example of the doc comment of `chunk_list`:
`chunk_list [1..7] 3 = [[1,2,3],[4,5,6],[7]]`. -/
theorem C5_chunk_list_witness :
    chunk_list [1, 2, 3, 4, 5, 6, 7] 3 = [[1, 2, 3], [4, 5, 6], [7]] ∧
    ((chunk_list [1, 2, 3, 4, 5, 6, 7] 3).flatten = [1, 2, 3, 4, 5, 6, 7] ∧
     (∀ c ∈ (chunk_list [1, 2, 3, 4, 5, 6, 7] 3).dropLast, c.length = 3) ∧
     (∀ c ∈ chunk_list [1, 2, 3, 4, 5, 6, 7] 3, c ≠ [] ∧ c.length ≤ 3) ∧
     (chunk_list [1, 2, 3, 4, 5, 6, 7] 3 = [] ↔ [1, 2, 3, 4, 5, 6, 7] = ([] : List Nat))) :=
  ⟨by decide, C5_chunk_list_properties [1, 2, 3, 4, 5, 6, 7] 3 (by decide)⟩

/- ### C9 -/

/-- C9: `CustomTargetingService.delete` batches the deletion through
`ListHelper.chunk_list` with size 100: one `performCustomTargetingValueAction`
per chunk, each statement binding the targeting key id and enumerating exactly
the ids of its chunk, the issued id lists concatenating (in order) to the ids
of all given pairs — so each pair's id occurrence lands in exactly one call —
and no call naming more than 100 ids. -/
theorem C9_custom_targeting_delete_batches (targeting_key_id : Int)
    (pairs : List KeyValuePair) :
    custom_targeting_delete targeting_key_id pairs
        = (chunk_list pairs 100).map (fun slice =>
            { keyId := targeting_key_id
              ids := slice.map (fun kvp => kvp.id)
              whereText := "customTargetingKeyId = :keyId AND id IN ("
                ++ joinSep ", " (slice.map (fun kvp => toString kvp.id)) ++ ")" }) ∧
    ((custom_targeting_delete targeting_key_id pairs).map (fun c => c.ids)).flatten
        = pairs.map (fun kvp => kvp.id) ∧
    (∀ c ∈ custom_targeting_delete targeting_key_id pairs,
        c.keyId = targeting_key_id ∧ c.ids ≠ [] ∧ c.ids.length ≤ 100) := by
  obtain ⟨hflat, hall, _, _⟩ := chunk_list_spec pairs 100 (by omega)
  refine ⟨rfl, ?_, ?_⟩
  · have hmap : (custom_targeting_delete targeting_key_id pairs).map (fun c => c.ids)
        = (chunk_list pairs 100).map (fun slice => slice.map (fun kvp => kvp.id)) := by
      unfold custom_targeting_delete
      rw [List.map_map]
      rfl
    rw [hmap, ← List.map_flatten, hflat]
  · intro c hc
    unfold custom_targeting_delete at hc
    obtain ⟨slice, hslice, hcall⟩ := List.mem_map.mp hc
    obtain ⟨hne, hlen⟩ := hall slice hslice
    subst hcall
    refine ⟨rfl, ?_, ?_⟩
    · simpa using hne
    · simpa using hlen

/- ### C8 -/

/-- C8: `BigQuery.delete_partition` is guarded on `table_exists`: when the
table does not exist it returns `False` and issues no query; when it exists
it issues exactly the single `DELETE FROM {table_id} WHERE {partition_name} =
'{partition_date:%Y-%m-%d}'` query (awaited via `.result()`) and returns
`True`. -/
theorem C8_delete_partition_guarded (table_id : String) (d : PyDate)
    (partition_name : String) :
    delete_partition false table_id d partition_name = ([], false) ∧
    delete_partition true table_id d partition_name
      = (["DELETE FROM " ++ table_id ++ " WHERE " ++ partition_name ++ " = '"
            ++ strftimeYmd d ++ "'"], true) ∧
    ∀ exists? : Bool,
      (delete_partition exists? table_id d partition_name).1.length
          = (if exists? then 1 else 0) ∧
      (delete_partition exists? table_id d partition_name).2 = exists? := by
  refine ⟨rfl, rfl, ?_⟩
  intro exists?
  cases exists? <;> simp [delete_partition]

/- ### C6 -/

/-- C6: failure handling is pure propagation of vendor-SDK waits.
`ReportService._get_report_by_report_job` blocks on `WaitForReport` and
re-raises an `AdManagerReportError` unchanged, returning no report data;
`BigQuery.load_from_query`, `load_from_cloud` and `load_from_uri` each submit
their single job, block on `.result()`, and return (`True`) only when that
single call completed, adding no retry or recovery: any error of the awaited
job is propagated unchanged. -/
theorem C6_vendor_wait_propagation {Job Id Row : Type}
    (waitForReport : Job → Except String Id) (downloadReport : Id → List Row)
    (report_job : Job)
    (run : QueryCall → Except String Unit) (query table_id : String)
    (wd : WriteDisposition)
    (cloud : CloudFS) (runLoad : LoadCall → Except String Unit) (texists : Bool)
    (bucket_name data_set table remote_folder data_path : String)
    (partition_date : Option PyDate) (partition_name : String) (override : Bool)
    (fs : LocalFS) :
    (∀ e, waitForReport report_job = Except.error e →
        get_report_by_report_job waitForReport downloadReport report_job
          = Except.error e) ∧
    (∀ rid, waitForReport report_job = Except.ok rid →
        get_report_by_report_job waitForReport downloadReport report_job
          = Except.ok (downloadReport rid)) ∧
    ((load_from_query run query table_id wd).1
        = [{ query := query,
             config := some { destination := some table_id, allow_large_results := true,
                              write_disposition := some wd } }] ∧
     (load_from_query run query table_id wd).2
        = run { query := query,
                config := some { destination := some table_id, allow_large_results := true,
                                 write_disposition := some wd } }) ∧
    (∀ call : LoadCall,
        (load_from_uri cloud runLoad table_id bucket_name data_path partition_date fs).2.1
            = [call] →
          (load_from_uri cloud runLoad table_id bucket_name data_path partition_date fs).2.2
            = (match runLoad call with
               | Except.error e => Except.error e
               | Except.ok _ => Except.ok true)) ∧
    ((load_from_uri cloud runLoad table_id bucket_name data_path partition_date fs).2.2
        = Except.ok true →
      ∃ call,
        (load_from_uri cloud runLoad table_id bucket_name data_path partition_date fs).2.1
            = [call] ∧ runLoad call = Except.ok ()) ∧
    (∀ call : LoadCall,
        (load_from_cloud cloud texists runLoad bucket_name data_set table remote_folder
            partition_date partition_name override fs).2.2.1 = [call] →
          (load_from_cloud cloud texists runLoad bucket_name data_set table remote_folder
              partition_date partition_name override fs).2.2.2
            = (match runLoad call with
               | Except.error e => Except.error e
               | Except.ok _ => Except.ok true)) ∧
    ((load_from_cloud cloud texists runLoad bucket_name data_set table remote_folder
         partition_date partition_name override fs).2.2.2 = Except.ok true →
      ∃ call,
        (load_from_cloud cloud texists runLoad bucket_name data_set table remote_folder
            partition_date partition_name override fs).2.2.1 = [call] ∧
        runLoad call = Except.ok ()) := by
  refine ⟨?_, ?_, ⟨rfl, rfl⟩, ?_, ?_, ?_, ?_⟩
  · intro e h
    simp [get_report_by_report_job, h]
  · intro rid h
    simp [get_report_by_report_job, h]
  · intro call hcall
    unfold load_from_uri at hcall ⊢
    rcases hb : build_job_config cloud bucket_name data_path partition_date fs
      with ⟨ev, res⟩
    rcases res with e | ⟨fs', cfg, uri⟩
    · rw [hb] at hcall
      simp at hcall
    · rw [hb] at hcall
      rcases hr : runLoad { uri := uri, destination := table_id, config := cfg }
        with e | u
      · simp [hr] at hcall
        subst hcall
        simp [hr]
      · simp [hr] at hcall
        subst hcall
        simp [hr]
  · intro hok
    unfold load_from_uri at hok ⊢
    rcases hb : build_job_config cloud bucket_name data_path partition_date fs
      with ⟨ev, res⟩
    rcases res with e | ⟨fs', cfg, uri⟩
    · rw [hb] at hok
      simp at hok
    · rw [hb] at hok
      rcases hr : runLoad { uri := uri, destination := table_id, config := cfg }
        with e | u
      · simp [hr] at hok
      · refine ⟨{ uri := uri, destination := table_id, config := cfg }, ?_, ?_⟩
        · simp [hr]
        · rw [hr]
  · intro call hcall
    unfold load_from_cloud at hcall ⊢
    rcases hd : load_from_cloud_delete_step texists (data_set ++ "." ++ table)
        partition_date partition_name override with ⟨qs, dres⟩
    rcases dres with e | u
    · simp only [hd] at hcall
      simp at hcall
    · simp only [hd] at hcall
      rcases hb : build_job_config cloud bucket_name remote_folder partition_date fs
        with ⟨ev, res⟩
      rcases res with e | ⟨fs', cfg, uri⟩
      · rw [hb] at hcall
        simp at hcall
      · rw [hb] at hcall
        rcases hr : runLoad
            { uri := uri, destination := data_set ++ "." ++ table, config := cfg }
          with e | u'
        · simp [hr] at hcall
          subst hcall
          simp [hd, hb, hr]
        · simp [hr] at hcall
          subst hcall
          simp [hd, hb, hr]
  · intro hok
    unfold load_from_cloud at hok ⊢
    rcases hd : load_from_cloud_delete_step texists (data_set ++ "." ++ table)
        partition_date partition_name override with ⟨qs, dres⟩
    rcases dres with e | u
    · simp only [hd] at hok
      simp at hok
    · simp only [hd] at hok
      rcases hb : build_job_config cloud bucket_name remote_folder partition_date fs
        with ⟨ev, res⟩
      rcases res with e | ⟨fs', cfg, uri⟩
      · rw [hb] at hok
        simp at hok
      · rw [hb] at hok
        rcases hr : runLoad
            { uri := uri, destination := data_set ++ "." ++ table, config := cfg }
          with e | u'
        · simp [hr] at hok
        · refine ⟨{ uri := uri, destination := data_set ++ "." ++ table, config := cfg },
            ?_, ?_⟩
          · simp [hd, hb, hr]
          · rw [hr]


/- ### C4 -/

/-- C4: credential construction is service-account based with a fixed
precedence and never interactive OAuth.  `BigQuery.__init__` prefers an
explicit path (project id from the file), then the
`GOOGLE_APPLICATION_CREDENTIALS` environment variable, then
application-default credentials; `ServiceAccount.from_service_account_file`
substitutes the environment variable when no path is given, with the
cloud-platform scope by default; `ServiceAccount.get_service_account_client`
builds a googleads service-account client with the ad_manager scope; and no
facade constructor (`BigQuery`, `CloudStorage`, `Analytics`, `GamClient`)
ever selects an interactive OAuth flow. -/
theorem C4_credential_precedence (p e : String) (c env : Option String)
    (scopes : List String) :
    bigquery_init_creds (some p) env
        = CredSource.serviceAccountFile (some p) cloudPlatformScopes ∧
    bigquery_init_creds none (some e)
        = CredSource.serviceAccountFile (some e) cloudPlatformScopes ∧
    bigquery_init_creds none none = CredSource.applicationDefault cloudPlatformScopes ∧
    from_service_account_file none env cloudPlatformScopes
        = CredSource.serviceAccountFile env cloudPlatformScopes ∧
    from_service_account_file (some p) env scopes
        = CredSource.serviceAccountFile (some p) scopes ∧
    cloudPlatformScopes = ["https://www.googleapis.com/auth/cloud-platform"] ∧
    get_service_account_client none env
        = CredSource.serviceAccountFile env [adManagerScope] ∧
    get_service_account_client (some p) env
        = CredSource.serviceAccountFile (some p) [adManagerScope] ∧
    (bigquery_init_creds c env).isInteractive = false ∧
    (cloudstorage_init_creds c env).isInteractive = false ∧
    (analytics_init_creds c env).isInteractive = false ∧
    (gamclient_init_creds env).isInteractive = false := by
  refine ⟨rfl, rfl, rfl, ?_, rfl, rfl, ?_, rfl, ?_, ?_, ?_, ?_⟩
  · cases env <;> rfl
  · cases env <;> rfl
  · cases c <;> cases env <;> rfl
  · cases c <;> cases env <;> rfl
  · cases c <;> cases env <;> rfl
  · cases env <;> rfl

/- ### C10 -/

/-- C10: CloudStorage write operations with `override=False` never overwrite
an existing blob.  With `override=False` each upload happens exactly when the
destination blob does not exist (otherwise the store is returned unchanged),
with `override=True` it always happens; `copy_file` copies and returns `True`
exactly when the file is absent from the destination bucket or `override` is
set, and returns `False` without writing otherwise. -/
theorem C10_guarded_writes (store : BlobStore)
    (bucket_name destination_blob_name data localContent destination_file_path
      file_name destination_bucket_name : String) :
    (upload_from_string store bucket_name destination_blob_name data false
        = (if cs_file_exists store destination_blob_name bucket_name then store
           else blobWrite store bucket_name destination_blob_name data)) ∧
    (upload_from_string store bucket_name destination_blob_name data true
        = blobWrite store bucket_name destination_blob_name data) ∧
    (upload_file_from_filename store localContent destination_file_path bucket_name false
        = (if cs_file_exists store destination_file_path bucket_name then store
           else blobWrite store bucket_name destination_file_path localContent)) ∧
    (upload_file_from_filename store localContent destination_file_path bucket_name true
        = blobWrite store bucket_name destination_file_path localContent) ∧
    (upload_file store localContent destination_file_path false
        = (let path_parts := splitOnChar (pyNormpath destination_file_path) '/'
           let bucket := path_parts.headI
           let blob := if path_parts.length > 1 then joinSep "/" path_parts.tail else ""
           if cs_file_exists store blob bucket then store
           else blobWrite store bucket blob localContent)) ∧
    (upload_file store localContent destination_file_path true
        = (let path_parts := splitOnChar (pyNormpath destination_file_path) '/'
           let bucket := path_parts.headI
           let blob := if path_parts.length > 1 then joinSep "/" path_parts.tail else ""
           blobWrite store bucket blob localContent)) ∧
    (copy_file store bucket_name file_name destination_bucket_name false
        = (if cs_file_exists store file_name destination_bucket_name then
             Except.ok (store, false)
           else
             match blobLookup store bucket_name file_name with
             | some content =>
               Except.ok (blobWrite store destination_bucket_name file_name content, true)
             | none => Except.error "google.cloud.exceptions.NotFound")) ∧
    (copy_file store bucket_name file_name destination_bucket_name true
        = (match blobLookup store bucket_name file_name with
           | some content =>
             Except.ok (blobWrite store destination_bucket_name file_name content, true)
           | none => Except.error "google.cloud.exceptions.NotFound")) := by
  refine ⟨?_, ?_, ?_, ?_, ?_, ?_, ?_, ?_⟩
  · by_cases h : cs_file_exists store destination_blob_name bucket_name
      <;> simp [upload_from_string, h]
  · simp [upload_from_string]
  · by_cases h : cs_file_exists store destination_file_path bucket_name
      <;> simp [upload_file_from_filename, h]
  · simp [upload_file_from_filename]
  · by_cases h : cs_file_exists store
        (if (splitOnChar (pyNormpath destination_file_path) '/').length > 1 then
          joinSep "/" (splitOnChar (pyNormpath destination_file_path) '/').tail
         else "")
        (splitOnChar (pyNormpath destination_file_path) '/').headI
      <;> simp [upload_file, h]
  · simp [upload_file]
  · by_cases h : cs_file_exists store file_name destination_bucket_name
      <;> simp [copy_file, h]
  · simp [copy_file]

/- ### C1 -/

lemma fsLookup_fsWrite (fs : LocalFS) (p q : String) (v : SchemaJson) :
    fsLookup (fsWrite fs p v) q = if p = q then some v else fsLookup fs q := by
  simp [fsWrite, fsLookup]

/-- C1 (amended): for a non-`None` partition date, `BigQuery.build_job_config`
builds the job configuration from the partition-local `schema.json`: one
`SchemaField` (name, type, mode) per `table_schema` entry in order;
`allow_jagged_rows`, `allow_quoted_newlines` and `ignore_unknown_values`
copied; write disposition `WRITE_APPEND` and the source URI templated as
`gs://{bucket_name}/{basename(dirname(data_path))}/{partition_date:%Y-%m-%d}`;
for `source_format = "CSV"` the URI is suffixed `/*.csv.gz` with
`field_delimiter` and `skip_leading_rows` copied, otherwise the format is
newline-delimited JSON and the suffix is `/*.json.gz`.  (The claim's
`partition_date is None` branch is refuted separately: the code raises before
reaching it.) -/
theorem C1_build_job_config_amended (cloud : CloudFS) (bucket_name data_path : String)
    (d : PyDate) (fs : LocalFS) (sj : SchemaJson)
    (hpart : fsLookup fs (data_path ++ strftimeYmd d ++ "/schema.json") = some sj)
    (hbase : (fsLookup fs (data_path ++ "schema.json")).isSome = true ∨
             (cloudLookup cloud bucket_name (data_path ++ "/schema.json")).isSome = true) :
    ∃ fs' : LocalFS,
      build_job_config cloud bucket_name data_path (some d) fs
        = ((if (fsLookup fs (data_path ++ "schema.json")).isSome then []
            else [CsEvent.download bucket_name (data_path ++ "/schema.json")
                    (data_path ++ "schema.json")]),
           Except.ok (fs',
             { schema := sj.table_schema.map
                 (fun field => SchemaField.mk field.name field.type field.mode)
               allow_jagged_rows := sj.allow_jagged_rows
               allow_quoted_newlines := sj.allow_quoted_newlines
               ignore_unknown_values := sj.ignore_unknown_values
               write_disposition := some WriteDisposition.WRITE_APPEND
               source_format := some (if sj.source_format = "CSV" then SourceFormat.CSV
                 else SourceFormat.NEWLINE_DELIMITED_JSON)
               field_delimiter :=
                 if sj.source_format = "CSV" then some sj.field_delimiter else none
               skip_leading_rows :=
                 if sj.source_format = "CSV" then some sj.skip_leading_rows else none },
             "gs://" ++ bucket_name ++ "/" ++ pyBasename (pyDirname data_path) ++ "/"
               ++ strftimeYmd d
               ++ (if sj.source_format = "CSV" then "/*.csv.gz" else "/*.json.gz"))) := by
  rcases hb : fsLookup fs (data_path ++ "schema.json") with _ | c
  · -- local cache missing: the schema is downloaded from Cloud Storage
    rcases hcloud : cloudLookup cloud bucket_name (data_path ++ "/schema.json")
      with _ | content
    · rcases hbase with h | h
      · rw [hb] at h
        simp at h
      · rw [hcloud] at h
        simp at h
    · refine ⟨fsWrite fs (data_path ++ "schema.json") content, ?_⟩
      have hpart' : fsLookup (fsWrite fs (data_path ++ "schema.json") content)
          (data_path ++ strftimeYmd d ++ "/schema.json") = some sj := by
        rw [fsLookup_fsWrite]
        rw [if_neg (Ne.symm (partition_path_ne data_path d)), hpart]
      by_cases hcsv : sj.source_format = "CSV"
        <;> simp [build_job_config, strftimeOpt, hb, hcloud, hpart', hcsv]
  · -- local cache present: no Cloud Storage call
    refine ⟨fs, ?_⟩
    by_cases hcsv : sj.source_format = "CSV"
      <;> simp [build_job_config, strftimeOpt, hb, hpart, hcsv]

/-- C1 counterexample: the claim's `partition_date is None` case is false on
the code.  With the schema file cached locally, `build_job_config` with a
`None` partition date raises (`partition_date.strftime` is evaluated at line
776, before the `if partition_date is not None` test at line 797) instead of
returning the `WRITE_TRUNCATE` configuration and `gs://{bucket}/{data_path}`
URI the claim describes. -/
theorem C1_counterexample_none_partition :
    (build_job_config [] "bucket" "my_table/" none
        [("my_table/schema.json",
          { table_schema := [{ name := "col1", type := "STRING", mode := "NULLABLE" }]
            allow_jagged_rows := true
            allow_quoted_newlines := true
            ignore_unknown_values := true
            source_format := "CSV"
            field_delimiter := ";"
            skip_leading_rows := 1 })]).2
      = Except.error "AttributeError: NoneType object has no attribute strftime" := by
  rfl

/-- Witness for C1 at the configuration of the repository's own test
`test_build_job_config_csv` (bucket `bucket`, folder `my_table/`, partition
date 2023-01-01, CSV schema): the cached and partition-local schema files are
present, no Cloud Storage call is made, and the CSV configuration and
partitioned URI are produced. -/
theorem C1_build_job_config_witness :
    fsLookup
        [("my_table/2023-01-01/schema.json",
          { table_schema := [{ name := "col1", type := "STRING", mode := "NULLABLE" },
                             { name := "col2", type := "INTEGER", mode := "REQUIRED" }]
            allow_jagged_rows := true
            allow_quoted_newlines := true
            ignore_unknown_values := true
            source_format := "CSV"
            field_delimiter := ";"
            skip_leading_rows := 1 }),
         ("my_table/schema.json",
          { table_schema := [{ name := "col1", type := "STRING", mode := "NULLABLE" },
                             { name := "col2", type := "INTEGER", mode := "REQUIRED" }]
            allow_jagged_rows := true
            allow_quoted_newlines := true
            ignore_unknown_values := true
            source_format := "CSV"
            field_delimiter := ";"
            skip_leading_rows := 1 })]
        ("my_table/" ++ strftimeYmd { year := 2023, month := 1, day := 1 }
          ++ "/schema.json")
      = some
          { table_schema := [{ name := "col1", type := "STRING", mode := "NULLABLE" },
                             { name := "col2", type := "INTEGER", mode := "REQUIRED" }]
            allow_jagged_rows := true
            allow_quoted_newlines := true
            ignore_unknown_values := true
            source_format := "CSV"
            field_delimiter := ";"
            skip_leading_rows := 1 } ∧
    (∃ fs' : LocalFS,
      build_job_config [] "bucket" "my_table/"
          (some { year := 2023, month := 1, day := 1 })
          [("my_table/2023-01-01/schema.json",
            { table_schema := [{ name := "col1", type := "STRING", mode := "NULLABLE" },
                               { name := "col2", type := "INTEGER", mode := "REQUIRED" }]
              allow_jagged_rows := true
              allow_quoted_newlines := true
              ignore_unknown_values := true
              source_format := "CSV"
              field_delimiter := ";"
              skip_leading_rows := 1 }),
           ("my_table/schema.json",
            { table_schema := [{ name := "col1", type := "STRING", mode := "NULLABLE" },
                               { name := "col2", type := "INTEGER", mode := "REQUIRED" }]
              allow_jagged_rows := true
              allow_quoted_newlines := true
              ignore_unknown_values := true
              source_format := "CSV"
              field_delimiter := ";"
              skip_leading_rows := 1 })]
        = ([],
           Except.ok (fs',
             { schema := [{ name := "col1", field_type := "STRING", mode := "NULLABLE" },
                          { name := "col2", field_type := "INTEGER", mode := "REQUIRED" }]
               allow_jagged_rows := true
               allow_quoted_newlines := true
               ignore_unknown_values := true
               write_disposition := some WriteDisposition.WRITE_APPEND
               source_format := some SourceFormat.CSV
               field_delimiter := some ";"
               skip_leading_rows := some 1 },
             "gs://bucket/my_table/2023-01-01/*.csv.gz"))) :=
  ⟨by decide,
   C1_build_job_config_amended [] "bucket" "my_table/"
     { year := 2023, month := 1, day := 1 }
     [("my_table/2023-01-01/schema.json",
       { table_schema := [{ name := "col1", type := "STRING", mode := "NULLABLE" },
                          { name := "col2", type := "INTEGER", mode := "REQUIRED" }]
         allow_jagged_rows := true
         allow_quoted_newlines := true
         ignore_unknown_values := true
         source_format := "CSV"
         field_delimiter := ";"
         skip_leading_rows := 1 }),
      ("my_table/schema.json",
       { table_schema := [{ name := "col1", type := "STRING", mode := "NULLABLE" },
                          { name := "col2", type := "INTEGER", mode := "REQUIRED" }]
         allow_jagged_rows := true
         allow_quoted_newlines := true
         ignore_unknown_values := true
         source_format := "CSV"
         field_delimiter := ";"
         skip_leading_rows := 1 })]
     { table_schema := [{ name := "col1", type := "STRING", mode := "NULLABLE" },
                        { name := "col2", type := "INTEGER", mode := "REQUIRED" }]
       allow_jagged_rows := true
       allow_quoted_newlines := true
       ignore_unknown_values := true
       source_format := "CSV"
       field_delimiter := ";"
       skip_leading_rows := 1 }
     (by decide) (Or.inl (by decide))⟩

/- ### C2 -/

lemma partition_path_ne_load (l : String) (d : PyDate) :
    l ++ strftimeYmd d ++ "/" ++ "schema.json" ≠ l ++ "schema.json" := by
  intro h
  have hlen := congrArg String.length h
  simp only [String.length_append] at hlen
  have h10 := strftimeYmd_length_ge d
  have h11 : ("/" : String).length = 1 := rfl
  have h12 : ("schema.json" : String).length = 11 := rfl
  omega

/-- C2: the local/Cloud-Storage schema-caching convention.
`build_job_config` downloads `{data_path}/schema.json` from the bucket to the
local cache exactly when `{data_path}schema.json` does not exist locally (its
only Cloud Storage call); on success the partition-local copy
`{data_path}{date}/schema.json` pre-exists unchanged or is created from the
cached schema, and the job configuration is always read from the
partition-local file.  `load_from_local` follows the same convention before
uploading. -/
theorem C2_schema_caching_convention (cloud : CloudFS)
    (bucket_name data_path table local_folder : String) (d : PyDate) (fs : LocalFS) :
    ((build_job_config cloud bucket_name data_path (some d) fs).1
        = (if (fsLookup fs (data_path ++ "schema.json")).isSome then []
           else [CsEvent.download bucket_name (data_path ++ "/schema.json")
                   (data_path ++ "schema.json")])) ∧
    (∀ fs' cfg uri,
       (build_job_config cloud bucket_name data_path (some d) fs).2
           = Except.ok (fs', cfg, uri) →
         (∀ sj, fsLookup fs (data_path ++ strftimeYmd d ++ "/schema.json") = some sj →
            fsLookup fs' (data_path ++ strftimeYmd d ++ "/schema.json") = some sj) ∧
         (fsLookup fs (data_path ++ strftimeYmd d ++ "/schema.json") = none →
            fsLookup fs' (data_path ++ strftimeYmd d ++ "/schema.json")
              = fsLookup fs' (data_path ++ "schema.json") ∧
            (fsLookup fs' (data_path ++ "schema.json")).isSome = true) ∧
         (∃ sj, fsLookup fs' (data_path ++ strftimeYmd d ++ "/schema.json") = some sj ∧
            cfg.schema = sj.table_schema.map
              (fun field => SchemaField.mk field.name field.type field.mode) ∧
            cfg.allow_jagged_rows = sj.allow_jagged_rows ∧
            cfg.allow_quoted_newlines = sj.allow_quoted_newlines ∧
            cfg.ignore_unknown_values = sj.ignore_unknown_values)) ∧
    ((∃ dest, CsEvent.download bucket_name (table ++ "/" ++ "schema.json") dest
        ∈ (load_from_local_sync cloud bucket_name table local_folder (some d) false fs).1)
       ↔ fsLookup fs (local_folder ++ "schema.json") = none) ∧
    (∀ fs', (load_from_local_sync cloud bucket_name table local_folder (some d) false fs).2
        = Except.ok fs' →
      (∀ sj, fsLookup fs (local_folder ++ strftimeYmd d ++ "/" ++ "schema.json") = some sj →
         fsLookup fs' (local_folder ++ strftimeYmd d ++ "/" ++ "schema.json") = some sj) ∧
      (fsLookup fs (local_folder ++ strftimeYmd d ++ "/" ++ "schema.json") = none →
         fsLookup fs' (local_folder ++ strftimeYmd d ++ "/" ++ "schema.json")
           = fsLookup fs' (local_folder ++ "schema.json") ∧
         (fsLookup fs' (local_folder ++ "schema.json")).isSome = true)) := by
  have hne := Ne.symm (partition_path_ne data_path d)
  have hne' := partition_path_ne data_path d
  have hneL' := Ne.symm (partition_path_ne_load local_folder d)
  have hneL := partition_path_ne_load local_folder d
  refine ⟨?_, ?_, ?_, ?_⟩
  · -- build_job_config: download exactly when the cache is missing
    rcases hb : fsLookup fs (data_path ++ "schema.json") with _ | c
    · rcases hcloud : cloudLookup cloud bucket_name (data_path ++ "/schema.json")
        with _ | content
      · simp [build_job_config, strftimeOpt, hb, hcloud]
      · rcases hpp : fsLookup fs (data_path ++ strftimeYmd d ++ "/schema.json")
          with _ | sj
          <;> simp [build_job_config, strftimeOpt, hb, hcloud, hpp,
                fsLookup_fsWrite, hne]
    · rcases hpp : fsLookup fs (data_path ++ strftimeYmd d ++ "/schema.json")
        with _ | sj
        <;> simp [build_job_config, strftimeOpt, hb, hpp, fsLookup_fsWrite, hne]
  · -- build_job_config: partition copy and configuration source
    intro fs' cfg uri hok
    rw [build_job_config] at hok
    rcases hb : fsLookup fs (data_path ++ "schema.json") with _ | c
    · rcases hcloud : cloudLookup cloud bucket_name (data_path ++ "/schema.json")
        with _ | content
      · simp [strftimeOpt, hb, hcloud] at hok
      · rcases hpp : fsLookup fs (data_path ++ strftimeYmd d ++ "/schema.json")
          with _ | sj
        · by_cases hcsv : content.source_format = "CSV"
          · simp [strftimeOpt, hb, hcloud, hpp, fsLookup_fsWrite, hne, hcsv] at hok
            obtain ⟨hfs', hcfg, huri⟩ := hok
            subst hfs'
            subst hcfg
            subst huri
            refine ⟨?_, ?_, ?_⟩
            · intro sjx hsjx
              simp [hpp] at hsjx
            · intro _
              constructor
              · simp [fsLookup_fsWrite, hne, hne', hb, if_neg hne']
              · simp [fsLookup_fsWrite, hne, hne', hb, if_neg hne']
            · exact ⟨content, by simp [fsLookup_fsWrite], rfl, rfl, rfl, rfl⟩
          · simp [strftimeOpt, hb, hcloud, hpp, fsLookup_fsWrite, hne, hcsv] at hok
            obtain ⟨hfs', hcfg, huri⟩ := hok
            subst hfs'
            subst hcfg
            subst huri
            refine ⟨?_, ?_, ?_⟩
            · intro sjx hsjx
              simp [hpp] at hsjx
            · intro _
              constructor
              · simp [fsLookup_fsWrite, hne, hne', hb, if_neg hne']
              · simp [fsLookup_fsWrite, hne, hne', hb, if_neg hne']
            · exact ⟨content, by simp [fsLookup_fsWrite], rfl, rfl, rfl, rfl⟩
        · by_cases hcsv : sj.source_format = "CSV"
          · simp [strftimeOpt, hb, hcloud, hpp, fsLookup_fsWrite, hne, hcsv] at hok
            obtain ⟨hfs', hcfg, huri⟩ := hok
            subst hfs'
            subst hcfg
            subst huri
            refine ⟨?_, ?_, ?_⟩
            · intro sj' hsj'
              simp [hpp] at hsj'
              subst hsj'
              simp [fsLookup_fsWrite, hne, hpp]
            · intro hcontr
              simp [hpp] at hcontr
            · exact ⟨sj, by simp [fsLookup_fsWrite, hne, hpp], rfl, rfl, rfl, rfl⟩
          · simp [strftimeOpt, hb, hcloud, hpp, fsLookup_fsWrite, hne, hcsv] at hok
            obtain ⟨hfs', hcfg, huri⟩ := hok
            subst hfs'
            subst hcfg
            subst huri
            refine ⟨?_, ?_, ?_⟩
            · intro sj' hsj'
              simp [hpp] at hsj'
              subst hsj'
              simp [fsLookup_fsWrite, hne, hpp]
            · intro hcontr
              simp [hpp] at hcontr
            · exact ⟨sj, by simp [fsLookup_fsWrite, hne, hpp], rfl, rfl, rfl, rfl⟩
    · rcases hpp : fsLookup fs (data_path ++ strftimeYmd d ++ "/schema.json")
        with _ | sj
      · by_cases hcsv : c.source_format = "CSV"
        · simp [strftimeOpt, hb, hpp, fsLookup_fsWrite, hne, hcsv] at hok
          obtain ⟨hfs', hcfg, huri⟩ := hok
          subst hfs'
          subst hcfg
          subst huri
          refine ⟨?_, ?_, ?_⟩
          · intro sjx hsjx
            simp [hpp] at hsjx
          · intro _
            constructor
            · simp [fsLookup_fsWrite, hne, hne', hb, if_neg hne']
            · simp [fsLookup_fsWrite, hne, hne', hb, if_neg hne']
          · exact ⟨c, by simp [fsLookup_fsWrite], rfl, rfl, rfl, rfl⟩
        · simp [strftimeOpt, hb, hpp, fsLookup_fsWrite, hne, hcsv] at hok
          obtain ⟨hfs', hcfg, huri⟩ := hok
          subst hfs'
          subst hcfg
          subst huri
          refine ⟨?_, ?_, ?_⟩
          · intro sjx hsjx
            simp [hpp] at hsjx
          · intro _
            constructor
            · simp [fsLookup_fsWrite, hne, hne', hb, if_neg hne']
            · simp [fsLookup_fsWrite, hne, hne', hb, if_neg hne']
          · exact ⟨c, by simp [fsLookup_fsWrite], rfl, rfl, rfl, rfl⟩
      · by_cases hcsv : sj.source_format = "CSV"
        · simp [strftimeOpt, hb, hpp, fsLookup_fsWrite, hne, hcsv] at hok
          obtain ⟨hfs', hcfg, huri⟩ := hok
          subst hfs'
          subst hcfg
          subst huri
          refine ⟨?_, ?_, ?_⟩
          · intro sj' hsj'
            simp [hpp] at hsj'
            subst hsj'
            exact hpp
          · intro hcontr
            simp [hpp] at hcontr
          · exact ⟨sj, hpp, rfl, rfl, rfl, rfl⟩
        · simp [strftimeOpt, hb, hpp, fsLookup_fsWrite, hne, hcsv] at hok
          obtain ⟨hfs', hcfg, huri⟩ := hok
          subst hfs'
          subst hcfg
          subst huri
          refine ⟨?_, ?_, ?_⟩
          · intro sj' hsj'
            simp [hpp] at hsj'
            subst hsj'
            exact hpp
          · intro hcontr
            simp [hpp] at hcontr
          · exact ⟨sj, hpp, rfl, rfl, rfl, rfl⟩
  · -- load_from_local_sync: download exactly when the cache is missing
    rcases hb : fsLookup fs (local_folder ++ "schema.json") with _ | c
    · rcases hcloud : cloudLookup cloud bucket_name (table ++ "/" ++ "schema.json")
        with _ | content
      · simp [load_from_local_sync, hb, hcloud]
      · rcases hpp : fsLookup fs (local_folder ++ strftimeYmd d ++ "/" ++ "schema.json")
          with _ | sj
          <;> simp [load_from_local_sync, hb, hcloud, hpp, fsLookup_fsWrite, hneL']
    · rcases hpp : fsLookup fs (local_folder ++ strftimeYmd d ++ "/" ++ "schema.json")
        with _ | sj
        <;> simp [load_from_local_sync, hb, hpp, fsLookup_fsWrite, hneL']
  · -- load_from_local_sync: partition copy created exactly when absent
    intro fs' hok
    rw [load_from_local_sync] at hok
    rcases hb : fsLookup fs (local_folder ++ "schema.json") with _ | c
    · rcases hcloud : cloudLookup cloud bucket_name (table ++ "/" ++ "schema.json")
        with _ | content
      · simp [hb, hcloud] at hok
      · rcases hpp : fsLookup fs (local_folder ++ strftimeYmd d ++ "/" ++ "schema.json")
          with _ | sj
        · simp [hb, hcloud, hpp, fsLookup_fsWrite, hneL'] at hok
          subst hok
          refine ⟨?_, ?_⟩
          · intro sjx hsjx
            simp [hpp] at hsjx
          · intro _
            constructor
            · simp [fsLookup_fsWrite, hneL', hneL, hb, if_neg hneL]
            · simp [fsLookup_fsWrite, hneL', hneL, hb, if_neg hneL]
        · simp [hb, hcloud, hpp, fsLookup_fsWrite, hneL'] at hok
          subst hok
          refine ⟨?_, ?_⟩
          · intro sj' hsj'
            simp [hpp] at hsj'
            subst hsj'
            simp [fsLookup_fsWrite, hneL', hpp]
          · intro hcontr
            simp [hpp] at hcontr
    · rcases hpp : fsLookup fs (local_folder ++ strftimeYmd d ++ "/" ++ "schema.json")
        with _ | sj
      · simp [hb, hpp, fsLookup_fsWrite, hneL'] at hok
        subst hok
        refine ⟨?_, ?_⟩
        · intro sjx hsjx
          simp [hpp] at hsjx
        · intro _
          constructor
          · simp [fsLookup_fsWrite, hneL', hneL, hb, if_neg hneL]
          · simp [fsLookup_fsWrite, hneL', hneL, hb, if_neg hneL]
      · simp [hb, hpp, fsLookup_fsWrite, hneL'] at hok
        subst hok
        refine ⟨?_, ?_⟩
        · intro sj' hsj'
          simp [hpp] at hsj'
          subst hsj'
          exact hpp
        · intro hcontr
          simp [hpp] at hcontr

/- ### C3 -/

lemma stmtAt_zero (s : Statement) : stmtAt s 0 = s := by
  cases s
  simp [stmtAt]

lemma stmtAt_shift (s : Statement) (i : Nat) :
    stmtAt { s with offset := s.offset + s.limit } i = stmtAt s (i + 1) := by
  cases s
  simp only [stmtAt, Statement.mk.injEq, and_true, true_and]
  ring

/-- The shared paging loop, run to the first empty page: when pages
`0, ..., k-1` are non-empty, page `k` is empty or missing, and the fuel
exceeds `k`, the loop returns the accumulated pages in fetch order and leaves
the statement at offset `offset₀ + k * limit`. -/
lemma gam_page_loop_run {α : Type} (svc : GamService α) :
    ∀ (k fuel : Nat) (s : Statement) (acc : List α),
      k < fuel →
      (∀ i < k, (svc (stmtAt s i)).isSome = true ∧ (svc (stmtAt s i)).getD [] ≠ []) →
      (svc (stmtAt s k)).getD [] = [] →
      gam_page_loop svc fuel s acc
        = some (acc ++ ((List.range k).map (pageAt svc s)).flatten, stmtAt s k) := by
  intro k
  induction k with
  | zero =>
    intro fuel s acc hfuel _ hstop
    match fuel, hfuel with
    | fuel + 1, _ =>
      rw [stmtAt_zero] at hstop
      rw [stmtAt_zero]
      rcases hs : svc s with _ | rs
      · simp [gam_page_loop, hs]
      · rw [hs] at hstop
        simp at hstop
        subst hstop
        simp [gam_page_loop, hs]
  | succ k ih =>
    intro fuel s acc hfuel hpages hstop
    match fuel, hfuel with
    | fuel + 1, hfuel =>
      obtain ⟨hsome, hne⟩ := hpages 0 (Nat.succ_pos k)
      rw [stmtAt_zero] at hsome hne
      rcases hs : svc s with _ | rs
      · rw [hs] at hsome
        simp at hsome
      · rw [hs] at hne
        simp at hne
        have hemp : rs.isEmpty = false := by
          cases rs
          · exact absurd rfl hne
          · rfl
        have hp' : ∀ i < k,
            (svc (stmtAt { s with offset := s.offset + s.limit } i)).isSome = true ∧
            (svc (stmtAt { s with offset := s.offset + s.limit } i)).getD [] ≠ [] := by
          intro i hi
          rw [stmtAt_shift]
          exact hpages (i + 1) (Nat.succ_lt_succ hi)
        have hs' : (svc (stmtAt { s with offset := s.offset + s.limit } k)).getD [] = [] := by
          rw [stmtAt_shift]
          exact hstop
        have hrec := ih fuel { s with offset := s.offset + s.limit } (acc ++ rs)
          (Nat.lt_of_succ_lt_succ hfuel) hp' hs'
        have hstep : gam_page_loop svc (fuel + 1) s acc
            = gam_page_loop svc fuel { s with offset := s.offset + s.limit } (acc ++ rs) := by
          simp [gam_page_loop, hs, hemp]
        rw [hstep, hrec, stmtAt_shift]
        have hlist : (acc ++ rs)
            ++ ((List.range k).map (pageAt svc { s with offset := s.offset + s.limit })).flatten
            = acc ++ ((List.range (k + 1)).map (pageAt svc s)).flatten := by
          rw [List.range_succ_eq_map, List.map_cons, List.flatten_cons, List.map_map]
          have h0 : pageAt svc s 0 = rs := by
            simp [pageAt, stmtAt_zero, hs]
          rw [h0]
          have hcong : (List.range k).map (pageAt svc s ∘ Nat.succ)
              = (List.range k).map (pageAt svc { s with offset := s.offset + s.limit }) := by
            apply List.map_congr_left
            intro i _
            simp only [Function.comp_apply, pageAt]
            rw [stmtAt_shift]
          rw [hcong, List.append_assoc]
        rw [hlist]

/-- The dict-accumulating variant (`TargetingPresetService.list_by_prefix`):
run to the first empty page, the dict is the left fold of `dictInsert` over
the concatenated pages in fetch order. -/
lemma gam_dict_loop_run {β : Type} (nameOf : β → String) (svc : GamService β) :
    ∀ (k fuel : Nat) (s : Statement) (acc : List (String × β)),
      k < fuel →
      (∀ i < k, (svc (stmtAt s i)).isSome = true ∧ (svc (stmtAt s i)).getD [] ≠ []) →
      (svc (stmtAt s k)).getD [] = [] →
      gam_dict_loop nameOf svc fuel s acc
        = some ((((List.range k).map (pageAt svc s)).flatten).foldl
            (fun m p => dictInsert m (nameOf p) p) acc, stmtAt s k) := by
  intro k
  induction k with
  | zero =>
    intro fuel s acc hfuel _ hstop
    match fuel, hfuel with
    | fuel + 1, _ =>
      rw [stmtAt_zero] at hstop
      rw [stmtAt_zero]
      rcases hs : svc s with _ | rs
      · simp [gam_dict_loop, hs]
      · rw [hs] at hstop
        simp at hstop
        subst hstop
        simp [gam_dict_loop, hs]
  | succ k ih =>
    intro fuel s acc hfuel hpages hstop
    match fuel, hfuel with
    | fuel + 1, hfuel =>
      obtain ⟨hsome, hne⟩ := hpages 0 (Nat.succ_pos k)
      rw [stmtAt_zero] at hsome hne
      rcases hs : svc s with _ | rs
      · rw [hs] at hsome
        simp at hsome
      · rw [hs] at hne
        simp at hne
        have hemp : rs.isEmpty = false := by
          cases rs
          · exact absurd rfl hne
          · rfl
        have hp' : ∀ i < k,
            (svc (stmtAt { s with offset := s.offset + s.limit } i)).isSome = true ∧
            (svc (stmtAt { s with offset := s.offset + s.limit } i)).getD [] ≠ [] := by
          intro i hi
          rw [stmtAt_shift]
          exact hpages (i + 1) (Nat.succ_lt_succ hi)
        have hs' : (svc (stmtAt { s with offset := s.offset + s.limit } k)).getD [] = [] := by
          rw [stmtAt_shift]
          exact hstop
        have hrec := ih fuel { s with offset := s.offset + s.limit }
          (rs.foldl (fun m p => dictInsert m (nameOf p) p) acc)
          (Nat.lt_of_succ_lt_succ hfuel) hp' hs'
        have hstep : gam_dict_loop nameOf svc (fuel + 1) s acc
            = gam_dict_loop nameOf svc fuel { s with offset := s.offset + s.limit }
                (rs.foldl (fun m p => dictInsert m (nameOf p) p) acc) := by
          simp [gam_dict_loop, hs, hemp]
        rw [hstep, hrec, stmtAt_shift]
        have hlist : (((List.range k).map
              (pageAt svc { s with offset := s.offset + s.limit })).flatten).foldl
                (fun m p => dictInsert m (nameOf p) p)
                (rs.foldl (fun m p => dictInsert m (nameOf p) p) acc)
            = (((List.range (k + 1)).map (pageAt svc s)).flatten).foldl
                (fun m p => dictInsert m (nameOf p) p) acc := by
          rw [List.range_succ_eq_map, List.map_cons, List.flatten_cons, List.map_map]
          have h0 : pageAt svc s 0 = rs := by
            simp [pageAt, stmtAt_zero, hs]
          rw [h0]
          have hcong : (List.range k).map (pageAt svc s ∘ Nat.succ)
              = (List.range k).map (pageAt svc { s with offset := s.offset + s.limit }) := by
            apply List.map_congr_left
            intro i _
            simp only [Function.comp_apply, pageAt]
            rw [stmtAt_shift]
          rw [hcong, List.foldl_append]
        rw [hlist]

/-- C3: every Ad Manager paginated listing (`AudienceService.list`,
`AudienceService.list_all`, `CustomTargetingService.list`,
`TargetingPresetService.list_by_prefix`) pages by offset: each non-empty
response advances the statement's offset by exactly its limit, the loop stops
at the first response with a missing or empty `results` field, and the
returned collection accumulates the non-empty pages in fetch order (a plain
concatenation for the list services, and for `list_by_prefix` the dict built
by inserting the concatenation in fetch order keyed by name). -/
theorem C3_pagination_by_offset {α β : Type} (svc : GamService α) (svc2 : GamService β)
    (nameOf : β → String) (s₀ t₀ : Statement) (k k2 fuel fuel2 : Nat)
    (hk : k < fuel)
    (hpages : ∀ i < k, (svc (stmtAt s₀ i)).isSome = true ∧ (svc (stmtAt s₀ i)).getD [] ≠ [])
    (hstop : (svc (stmtAt s₀ k)).getD [] = [])
    (hk2 : k2 < fuel2)
    (hpages2 : ∀ i < k2,
      (svc2 (stmtAt t₀ i)).isSome = true ∧ (svc2 (stmtAt t₀ i)).getD [] ≠ [])
    (hstop2 : (svc2 (stmtAt t₀ k2)).getD [] = []) :
    audience_service_list svc s₀ fuel
        = some (((List.range k).map (pageAt svc s₀)).flatten, stmtAt s₀ k) ∧
    audience_service_list_all svc s₀ fuel
        = some (((List.range k).map (pageAt svc s₀)).flatten, stmtAt s₀ k) ∧
    custom_targeting_service_list svc s₀ fuel
        = some (((List.range k).map (pageAt svc s₀)).flatten, stmtAt s₀ k) ∧
    targeting_preset_list nameOf svc2 t₀ fuel2
        = some ((((List.range k2).map (pageAt svc2 t₀)).flatten).foldl
            (fun m p => dictInsert m (nameOf p) p) [], stmtAt t₀ k2) := by
  have h1 := gam_page_loop_run svc k fuel s₀ [] hk hpages hstop
  have h2 := gam_dict_loop_run nameOf svc2 k2 fuel2 t₀ [] hk2 hpages2 hstop2
  simp only [List.nil_append] at h1
  exact ⟨h1, h1, h1, h2⟩

/-- Concrete service for the C3 witness: two non-empty pages then an empty
one, with limit 5. -/
def svcW : GamService Nat := fun s =>
  if s.offset = 0 then some [10, 11] else if s.offset = 5 then some [12] else some []

/-- Concrete service for the C3 witness dict loop: one page, then a response
with no results field. -/
def svcW2 : GamService String := fun s =>
  if s.offset = 0 then some ["a", "b"] else none

def s0W : Statement := { whereClause := "Type = :type", offset := 0, limit := 5 }

def t0W : Statement := { whereClause := "name LIKE :pre", offset := 0, limit := 2 }

/-- Witness for C3: the loops collect the pages in order and leave the offset
advanced by one limit per non-empty page. -/
theorem C3_pagination_witness :
    ((2 : Nat) < 3 ∧
     (∀ i < 2, (svcW (stmtAt s0W i)).isSome = true ∧ (svcW (stmtAt s0W i)).getD [] ≠ []) ∧
     (svcW (stmtAt s0W 2)).getD [] = [] ∧
     (1 : Nat) < 2 ∧
     (∀ i < 1, (svcW2 (stmtAt t0W i)).isSome = true ∧ (svcW2 (stmtAt t0W i)).getD [] ≠ []) ∧
     (svcW2 (stmtAt t0W 1)).getD [] = []) ∧
    audience_service_list svcW s0W 3
        = some ([10, 11, 12], { whereClause := "Type = :type", offset := 10, limit := 5 }) ∧
    targeting_preset_list (fun p => p) svcW2 t0W 2
        = some ([("a", "a"), ("b", "b")],
            { whereClause := "name LIKE :pre", offset := 2, limit := 2 }) := by
  have h := C3_pagination_by_offset svcW svcW2 (fun p => p) s0W t0W 2 1 3 2
    (by decide) (by decide) (by decide) (by decide) (by decide) (by decide)
  refine ⟨⟨by decide, by decide, by decide, by decide, by decide, by decide⟩, ?_, ?_⟩
  · exact h.1.trans (by decide)
  · exact h.2.2.2.trans (by decide)

/- ### C7 -/

/-- The sequential renaming loop equals the pointwise renaming, provided the
original names are distinct and no renamed name captures another column (if
some column's normalised name equals a column name of the frame, that name
must be a fixed point of the renaming — true of every actual report header;
a capture could only arise from a name like `"colcolumn.umn.x"` whose
deletion of `"column."` re-creates the substring). -/
lemma rename_fold_map :
    ∀ (todo pre : List String),
      (pre ++ todo).Nodup →
      (∀ c ∈ pre ++ todo, ∀ c' ∈ pre ++ todo,
          normalise_name c = c' → normalise_name c' = c') →
      todo.foldl
        (fun labels col => labels.map (fun x => if x = col then normalise_name col else x))
        (pre.map normalise_name ++ todo)
        = (pre ++ todo).map normalise_name := by
  intro todo
  induction todo with
  | nil =>
    intro pre _ _
    simp
  | cons c rest ih =>
    intro pre hnodup hstable
    rw [List.foldl_cons]
    have hcnotin : c ∉ rest := by
      have h1 : (c :: rest).Nodup := (List.nodup_append.mp hnodup).2.1
      exact (List.nodup_cons.mp h1).1
    have hstep : (pre.map normalise_name ++ c :: rest).map
        (fun x => if x = c then normalise_name c else x)
        = pre.map normalise_name ++ (normalise_name c :: rest) := by
      rw [List.map_append]
      congr 1
      · rw [List.map_map]
        apply List.map_congr_left
        intro p hp
        simp only [Function.comp_apply]
        by_cases hpc : normalise_name p = c
        · rw [if_pos hpc]
          have hc : normalise_name c = c :=
            hstable p (by simp [hp]) c (by simp) hpc
          rw [hc, hpc]
        · rw [if_neg hpc]
      · rw [List.map_cons]
        congr 1
        · simp
        · have hrest : rest.map (fun x => if x = c then normalise_name c else x)
              = rest.map (fun x => x) := by
            apply List.map_congr_left
            intro x hx
            rw [if_neg]
            intro h
            exact hcnotin (h ▸ hx)
          rw [hrest, List.map_id']
    rw [hstep]
    have hini : pre.map normalise_name ++ (normalise_name c :: rest)
        = (pre ++ [c]).map normalise_name ++ rest := by
      simp
    rw [hini]
    have hassoc : (pre ++ [c]) ++ rest = pre ++ c :: rest := by
      simp
    have hnodup' : ((pre ++ [c]) ++ rest).Nodup := by
      rw [hassoc]
      exact hnodup
    have hstable' : ∀ a ∈ (pre ++ [c]) ++ rest, ∀ b ∈ (pre ++ [c]) ++ rest,
        normalise_name a = b → normalise_name b = b := by
      rw [hassoc]
      exact hstable
    have hih := ih (pre ++ [c]) hnodup' hstable'
    rw [hih, hassoc]

/-- The renaming loop of `normalise_report`, as a pointwise map. -/
lemma rename_loop_eq_map (cols : List String) (hnodup : cols.Nodup)
    (hstable : ∀ c ∈ cols, ∀ c' ∈ cols,
        normalise_name c = c' → normalise_name c' = c') :
    rename_loop cols = cols.map normalise_name := by
  have h := rename_fold_map cols [] (by simpa) (by simpa)
  simpa [rename_loop] using h

lemma pyStrLeList_total : ∀ as bs : List Char,
    pyStrLeList as bs = true ∨ pyStrLeList bs as = true := by
  intro as
  induction as with
  | nil =>
    intro bs
    left
    rfl
  | cons a as ih =>
    intro bs
    cases bs with
    | nil =>
      right
      rfl
    | cons b bs =>
      rcases Nat.lt_trichotomy a.toNat b.toNat with h | h | h
      · left
        simp [pyStrLeList, h]
      · rcases ih bs with hl | hl
        · left
          simp [pyStrLeList, h, hl]
        · right
          simp [pyStrLeList, h, hl]
      · right
        simp [pyStrLeList, h]

lemma pyStrLe_total : ∀ a b : String, pyStrLe a b = true ∨ pyStrLe b a = true := by
  intro a b
  exact pyStrLeList_total a.data b.data

lemma pyStrLeList_trans : ∀ as bs cs : List Char,
    pyStrLeList as bs = true → pyStrLeList bs cs = true → pyStrLeList as cs = true := by
  intro as
  induction as with
  | nil =>
    intro bs cs _ _
    rfl
  | cons a as ih =>
    intro bs cs h1 h2
    cases bs with
    | nil => exact absurd h1 (by simp [pyStrLeList])
    | cons b bs =>
      cases cs with
      | nil => exact absurd h2 (by simp [pyStrLeList])
      | cons c cs =>
        by_cases hab : a.toNat < b.toNat <;> by_cases hba : b.toNat < a.toNat <;>
          by_cases hbc : b.toNat < c.toNat <;> by_cases hcb : c.toNat < b.toNat <;>
          simp [pyStrLeList, hab, hba, hbc, hcb] at h1 h2 ⊢ <;>
          first
          | omega
          | (constructor <;> omega)
          | (exact Or.inr ⟨by omega, ih bs cs h1 h2⟩)

lemma pyStrLe_trans : ∀ a b c : String,
    pyStrLe a b = true → pyStrLe b c = true → pyStrLe a c = true := by
  intro a b c h1 h2
  exact pyStrLeList_trans a.data b.data c.data h1 h2

/-- C7: `ReportService.normalise_report` renames every column by stripping,
lowercasing, replacing spaces and hyphens with underscores, and deleting the
substrings `"column."` and `"dimension."`; it operates on a copy of the input
frame; the returned columns are exactly the renamed names in ascending sorted
order, with `ad_unit_5` and `ad_unit_id_5` appended (filled with `"-"`) when
`ad_unit_4` is present and `ad_unit_5` is not.  Stated for frames whose
column names are distinct and capture-free (see `rename_fold_map`). -/
theorem C7_normalise_report_columns (cols : List String) (hnodup : cols.Nodup)
    (hstable : ∀ c ∈ cols, ∀ c' ∈ cols,
        normalise_name c = c' → normalise_name c' = c') :
    normalise_report cols
      = (if "ad_unit_4" ∈ cols.map normalise_name ∧
            "ad_unit_5" ∉ cols.map normalise_name
         then cols.map normalise_name ++ ["ad_unit_5", "ad_unit_id_5"]
         else cols.map normalise_name).insertionSort (fun a b => pyStrLe a b = true) ∧
    (normalise_report cols).Sorted (fun a b => pyStrLe a b = true) ∧
    (normalise_report cols).Perm
      (if "ad_unit_4" ∈ cols.map normalise_name ∧
          "ad_unit_5" ∉ cols.map normalise_name
       then cols.map normalise_name ++ ["ad_unit_5", "ad_unit_id_5"]
       else cols.map normalise_name) := by
  have hr : rename_loop cols = cols.map normalise_name :=
    rename_loop_eq_map cols hnodup hstable
  haveI htot : IsTotal String (fun a b => pyStrLe a b = true) := ⟨pyStrLe_total⟩
  haveI htrans : IsTrans String (fun a b => pyStrLe a b = true) := ⟨pyStrLe_trans⟩
  refine ⟨?_, ?_, ?_⟩
  · simp only [normalise_report, hr]
  · exact List.sorted_insertionSort _ _
  · simp only [normalise_report, hr]
    exact List.perm_insertionSort _ _

/-- Witness for C7 on a realistic report header: names are normalised and the
columns come back sorted. -/
theorem C7_normalise_report_witness :
    (["Dimension.DATE", "Dimension.AD_UNIT_NAME",
      "Column.AD_SERVER_IMPRESSIONS"] : List String).Nodup ∧
    (∀ c ∈ (["Dimension.DATE", "Dimension.AD_UNIT_NAME",
        "Column.AD_SERVER_IMPRESSIONS"] : List String),
      ∀ c' ∈ (["Dimension.DATE", "Dimension.AD_UNIT_NAME",
          "Column.AD_SERVER_IMPRESSIONS"] : List String),
        normalise_name c = c' → normalise_name c' = c') ∧
    normalise_report
        ["Dimension.DATE", "Dimension.AD_UNIT_NAME", "Column.AD_SERVER_IMPRESSIONS"]
      = ["ad_server_impressions", "ad_unit_name", "date"] := by
  refine ⟨by decide, by decide, ?_⟩
  exact (C7_normalise_report_columns
    ["Dimension.DATE", "Dimension.AD_UNIT_NAME", "Column.AD_SERVER_IMPRESSIONS"]
    (by decide) (by decide)).1.trans (by decide)
